import Mathlib

/-!
# floatcompare: a shallow embedding of `floatcompare/analyzer.go`

The analyzer walks the type-checked syntax tree of every file of a package and
reports the comparisons whose two operands are floating-point, as well as the
`switch` statements whose tag is floating-point.

The repository's own code (`isFloat`, `checkBinExpr`, `isCheckExpr`, `run`,
`render`) is translated function by function.  The parts of the Go standard
library and of `golang.org/x/tools` that this code calls are embedded next to
it, following their Go sources: `go/token` (tokens, positions), `go/ast`
(nodes, `Pos`, `Walk`, `Inspect`), `go/types` (`Basic`, `Underlying`,
`Info.TypeOf`), `strings.HasSuffix` and `strconv.Quote`.

Effects.  `pass.Reportf` appends one diagnostic to the output of the pass, so
every function that may report returns the list of diagnostics it reported,
in order.  A run-time failure of the Go code (a nil dereference) is the
`Except.error` result.
-/

namespace Floatcp

/-! ## go/token -/

/-- The type `token.Pos`: an offset into a file set; `0` is `token.NoPos`. -/
abbrev Pos := Int

/-- The type `token.Token`: the lexical tokens of Go. -/
inductive Token where
  | ILLEGAL | EOF | COMMENT
  | IDENT | INT | FLOAT | IMAG | CHAR | STRING
  | ADD | SUB | MUL | QUO | REM
  | AND | OR | XOR | SHL | SHR | AND_NOT
  | ADD_ASSIGN | SUB_ASSIGN | MUL_ASSIGN | QUO_ASSIGN | REM_ASSIGN
  | AND_ASSIGN | OR_ASSIGN | XOR_ASSIGN | SHL_ASSIGN | SHR_ASSIGN | AND_NOT_ASSIGN
  | LAND | LOR | ARROW | INC | DEC
  | EQL | LSS | GTR | ASSIGN | NOT
  | NEQ | LEQ | GEQ | DEFINE | ELLIPSIS
  | LPAREN | LBRACK | LBRACE | COMMA | PERIOD
  | RPAREN | RBRACK | RBRACE | SEMICOLON | COLON
  | BREAK | CASE | CHAN | CONST | CONTINUE
  | DEFAULT | DEFER | ELSE | FALLTHROUGH | FOR
  | FUNC | GO | GOTO | IF | IMPORT
  | INTERFACE | MAP | PACKAGE | RANGE | RETURN
  | SELECT | STRUCT | SWITCH | TYPE | VAR
  | TILDE
  deriving DecidableEq, Repr

/-- The method `token.Token.String`: the table `tokens` of `go/token`. -/
def Token.String : Token → String
  | .ILLEGAL => "ILLEGAL" | .EOF => "EOF" | .COMMENT => "COMMENT"
  | .IDENT => "IDENT" | .INT => "INT" | .FLOAT => "FLOAT" | .IMAG => "IMAG"
  | .CHAR => "CHAR" | .STRING => "STRING"
  | .ADD => "+" | .SUB => "-" | .MUL => "*" | .QUO => "/" | .REM => "%"
  | .AND => "&" | .OR => "|" | .XOR => "^" | .SHL => "<<" | .SHR => ">>" | .AND_NOT => "&^"
  | .ADD_ASSIGN => "+=" | .SUB_ASSIGN => "-=" | .MUL_ASSIGN => "*=" | .QUO_ASSIGN => "/="
  | .REM_ASSIGN => "%=" | .AND_ASSIGN => "&=" | .OR_ASSIGN => "|=" | .XOR_ASSIGN => "^="
  | .SHL_ASSIGN => "<<=" | .SHR_ASSIGN => ">>=" | .AND_NOT_ASSIGN => "&^="
  | .LAND => "&&" | .LOR => "||" | .ARROW => "<-" | .INC => "++" | .DEC => "--"
  | .EQL => "==" | .LSS => "<" | .GTR => ">" | .ASSIGN => "=" | .NOT => "!"
  | .NEQ => "!=" | .LEQ => "<=" | .GEQ => ">=" | .DEFINE => ":=" | .ELLIPSIS => "..."
  | .LPAREN => "(" | .LBRACK => "[" | .LBRACE => "\x7b" | .COMMA => "," | .PERIOD => "."
  | .RPAREN => ")" | .RBRACK => "]" | .RBRACE => "\x7d" | .SEMICOLON => ";" | .COLON => ":"
  | .BREAK => "break" | .CASE => "case" | .CHAN => "chan" | .CONST => "const"
  | .CONTINUE => "continue" | .DEFAULT => "default" | .DEFER => "defer" | .ELSE => "else"
  | .FALLTHROUGH => "fallthrough" | .FOR => "for" | .FUNC => "func" | .GO => "go"
  | .GOTO => "goto" | .IF => "if" | .IMPORT => "import" | .INTERFACE => "interface"
  | .MAP => "map" | .PACKAGE => "package" | .RANGE => "range" | .RETURN => "return"
  | .SELECT => "select" | .STRUCT => "struct" | .SWITCH => "switch" | .TYPE => "type"
  | .VAR => "var" | .TILDE => "~"

/-! ## go/types -/

/-- The type `types.BasicKind`: the kinds of the predeclared basic types. -/
inductive BasicKind where
  | Invalid
  | Bool
  | Int | Int8 | Int16 | Int32 | Int64
  | Uint | Uint8 | Uint16 | Uint32 | Uint64 | Uintptr
  | Float32 | Float64
  | Complex64 | Complex128
  | String
  | UnsafePointer
  | UntypedBool | UntypedInt | UntypedRune | UntypedFloat | UntypedComplex
  | UntypedString | UntypedNil
  deriving DecidableEq, Repr

/-- The flag `types.IsBoolean` of `types.BasicInfo` (`1 << 0`). -/
def IsBoolean : Nat := 1
/-- The flag `types.IsInteger` (`1 << 1`). -/
def IsInteger : Nat := 2
/-- The flag `types.IsUnsigned` (`1 << 2`). -/
def IsUnsigned : Nat := 4
/-- The flag `types.IsFloat` (`1 << 3`). -/
def IsFloat : Nat := 8
/-- The flag `types.IsComplex` (`1 << 4`). -/
def IsComplex : Nat := 16
/-- The flag `types.IsString` (`1 << 5`). -/
def IsString : Nat := 32
/-- The flag `types.IsUntyped` (`1 << 6`). -/
def IsUntyped : Nat := 64

/-- The method `(*types.Basic).Info`: the flags of a basic type, as listed in
the table `types.Typ` of the universe. -/
def BasicKind.Info : BasicKind → Nat
  | .Invalid => 0
  | .Bool => IsBoolean
  | .Int | .Int8 | .Int16 | .Int32 | .Int64 => IsInteger
  | .Uint | .Uint8 | .Uint16 | .Uint32 | .Uint64 | .Uintptr => IsInteger ||| IsUnsigned
  | .Float32 | .Float64 => IsFloat
  | .Complex64 | .Complex128 => IsComplex
  | .String => IsString
  | .UnsafePointer => 0
  | .UntypedBool => IsBoolean ||| IsUntyped
  | .UntypedInt | .UntypedRune => IsInteger ||| IsUntyped
  | .UntypedFloat => IsFloat ||| IsUntyped
  | .UntypedComplex => IsComplex ||| IsUntyped
  | .UntypedString => IsString ||| IsUntyped
  | .UntypedNil => IsUntyped

/-- The interface `types.Type`.  A `Named` type carries the type on the
right-hand side of its declaration, which may itself be named (`type A B`);
an `Alias` carries the type it stands for. -/
inductive GoType where
  | Basic (kind : BasicKind)
  | Named (name : String) (rhs : GoType)
  | Alias (name : String) (rhs : GoType)
  | Array (len : Nat) (elem : GoType)
  | Slice (elem : GoType)
  | Struct (fields : List (String × GoType))
  | Pointer (base : GoType)
  | Tuple (vars : List GoType)
  | Signature (params : List GoType) (results : List GoType)
  | Interface (methods : List (String × GoType))
  | Map (key : GoType) (elem : GoType)
  | Chan (elem : GoType)

/-- The method `Type.Underlying`: a named type or an alias resolves to the
underlying type of its declaration, through the whole chain of declarations;
every other type is its own underlying type. -/
def GoType.Underlying : GoType → GoType
  | .Named _ rhs => rhs.Underlying
  | .Alias _ rhs => rhs.Underlying
  | t => t

/-! ## go/ast -/

/-- The interface `ast.Node`, with the fields of each node kind as in `go/ast`.
Fields of the Go types `ast.Expr`, `ast.Stmt` and `ast.Decl`, and of pointers
to node structs, are fields of type `Node`; a field that may be `nil` in a
parsed file is an `Option`.  `Other` stands for every node kind without a
constructor of its own (declarations, assignments, loops, type expressions,
and so on): it records what `Pos()` returns and the children in the order in
which `ast.Walk` visits them. -/
inductive Node where
  | Ident (NamePos : Pos) (Name : String)
  | BasicLit (ValuePos : Pos) (Kind : Token) (Value : String)
  | ParenExpr (Lparen : Pos) (X : Node) (Rparen : Pos)
  | SelectorExpr (X : Node) (Sel : Node)
  | CallExpr (Fun : Node) (Lparen : Pos) (Args : List Node) (Rparen : Pos)
  | UnaryExpr (OpPos : Pos) (Op : Token) (X : Node)
  | BinaryExpr (X : Node) (OpPos : Pos) (Op : Token) (Y : Node)
  | ExprStmt (X : Node)
  | BlockStmt (Lbrace : Pos) (Stmts : List Node) (Rbrace : Pos)
  | IfStmt (If : Pos) (Init : Option Node) (Cond : Node) (Body : Node) (Else : Option Node)
  | CaseClause (Case : Pos) (Exprs : List Node) (Colon : Pos) (Body : List Node)
  | SwitchStmt (Switch : Pos) (Init : Option Node) (Tag : Option Node) (Body : Node)
  | File (Package : Pos) (Name : Node) (Decls : List Node)
  | Other (pos : Pos) (children : List Node)

/-- The method `ast.Node.Pos`: the position of the first character of the node. -/
def Node.Pos : Node → Pos
  | .Ident p _ => p
  | .BasicLit p _ _ => p
  | .ParenExpr p _ _ => p
  | .SelectorExpr X _ => X.Pos
  | .CallExpr Fun _ _ _ => Fun.Pos
  | .UnaryExpr p _ _ => p
  | .BinaryExpr X _ _ _ => X.Pos
  | .ExprStmt X => X.Pos
  | .BlockStmt p _ _ => p
  | .IfStmt p _ _ _ _ => p
  | .CaseClause p _ _ _ => p
  | .SwitchStmt p _ _ _ => p
  | .File p _ _ => p
  | .Other p _ => p

/-- The struct `ast.BinaryExpr`. -/
structure BinaryExpr where
  X : Node
  OpPos : Pos
  Op : Token
  Y : Node

/-- The node of a binary expression. -/
def BinaryExpr.toNode (b : BinaryExpr) : Node := .BinaryExpr b.X b.OpPos b.Op b.Y

/-- The method `(*ast.BinaryExpr).Pos`: `x.X.Pos()`. -/
def BinaryExpr.Pos (b : BinaryExpr) : Pos := b.X.Pos

/-- The struct `analysis.Diagnostic`, with the two fields `Reportf` sets. -/
structure Diagnostic where
  Pos : Pos
  Message : String
  deriving DecidableEq, Repr

/-- Two steps in sequence: the second runs if the first did not fail, and the
diagnostics of the first precede those of the second. -/
def seq2 (a b : Except String (List Diagnostic)) : Except String (List Diagnostic) :=
  match a with
  | .error e => .error e
  | .ok x =>
    match b with
    | .error e => .error e
    | .ok y => .ok (x ++ y)

/-! ## go/types: the result of type checking -/

/-- The interface `types.Object`, with the one method the analyzer reaches:
`Type()`, which may return `nil`. -/
structure Object where
  Typ : Option GoType

/-- The struct `types.Info`.  Go keys the maps by node identity; here a map is
a function of the node, and a missing key (or, for `Defs`, a `nil` object) is
`none`.  The type checker records only non-nil expressions with non-nil types
in `Types` (`recordTypeAndValue` asserts both), so the map takes a `Node` and
yields a `GoType`. -/
structure Info where
  Types : Node → Option GoType
  Defs : Node → Option Object
  Uses : Node → Option Object

/-- The method `(*types.Info).ObjectOf`. -/
def Info.ObjectOf (info : Info) (id : Node) : Option Object :=
  match info.Defs id with
  | some obj => some obj
  | none => info.Uses id

/-- The method `(*types.Info).TypeOf`, on an `ast.Expr` that may be `nil`:
the recorded type of the expression, else the type of the object an
identifier denotes, else `nil`. -/
def Info.TypeOf (info : Info) (e : Option Node) : Option GoType :=
  match e with
  | none => none
  | some e =>
    match info.Types e with
    | some t => some t
    | none =>
      match e with
      | .Ident _ _ =>
        match info.ObjectOf e with
        | some obj => obj.Typ
        | none => none
      | _ => none

/-! ## strings, strconv, fmt -/

/-- The function `strings.HasSuffix`:
`len(s) >= len(suffix) && s[len(s)-len(suffix):] == suffix`.  Go compares
bytes; on strings of Unicode characters the last bytes of `s` are those of
`suffix` exactly when its last characters are. -/
def HasSuffix (s suffix : String) : Bool :=
  decide (s.data.length ≥ suffix.data.length) &&
    decide (s.data.drop (s.data.length - suffix.data.length) = suffix.data)

/-- The digits `"0123456789abcdef"` of `strconv`. -/
def lowerhex (n : Nat) : Char :=
  "0123456789abcdef".data.getD (n % 16) '0'

/-- The function `strconv.IsPrint`.  The runes up to U+00FF are decided as in
the Go source; above, Go consults its Unicode tables, taken here as `wide`. -/
def IsPrint (wide : Char → Bool) (r : Char) : Bool :=
  if r.toNat ≤ 0xFF then
    if 0x20 ≤ r.toNat && r.toNat ≤ 0x7E then true
    else if 0xA1 ≤ r.toNat && r.toNat ≤ 0xFF then r.toNat != 0xAD
    else false
  else wide r

/-- The function `strconv.appendEscapedRune` with `quote = '"'`,
`ASCIIonly = false` and `graphicOnly = false`: the text that stands for one
rune inside a quoted string. -/
def escapedRune (wide : Char → Bool) (r : Char) : List Char :=
  if r = '"' || r = '\\' then ['\\', r]
  else if IsPrint wide r then [r]
  else if r.toNat = 7 then ['\\', 'a']
  else if r.toNat = 8 then ['\\', 'b']
  else if r.toNat = 12 then ['\\', 'f']
  else if r = '\n' then ['\\', 'n']
  else if r = '\r' then ['\\', 'r']
  else if r = '\t' then ['\\', 't']
  else if r.toNat = 11 then ['\\', 'v']
  else if r.toNat < 0x20 || r.toNat = 0x7F then
    ['\\', 'x', lowerhex (r.toNat / 16), lowerhex r.toNat]
  else if r.toNat < 0x10000 then
    ['\\', 'u', lowerhex (r.toNat / 4096), lowerhex (r.toNat / 256),
      lowerhex (r.toNat / 16), lowerhex r.toNat]
  else
    ['\\', 'U', lowerhex (r.toNat / 268435456), lowerhex (r.toNat / 16777216),
      lowerhex (r.toNat / 1048576), lowerhex (r.toNat / 65536),
      lowerhex (r.toNat / 4096), lowerhex (r.toNat / 256),
      lowerhex (r.toNat / 16), lowerhex r.toNat]

/-- The function `strconv.Quote`, which is what the verb `%q` of `fmt` prints
for a string: the string between double quotes, each rune escaped.  A string
is a sequence of Unicode scalar values, so the branch of the Go source for
bytes that are not valid UTF-8 has no counterpart. -/
def Quote (wide : Char → Bool) (s : String) : String :=
  String.mk ('"' :: (s.data.flatMap (escapedRune wide) ++ ['"']))

/-! ## golang.org/x/tools/go/analysis -/

/-- The struct `token.FileSet`, as the analyzer observes it: the file name of
a position (`fset.Position(p).Filename`) and what `printer.Fprint` writes for
a node of this file set (output, or the error it returns). -/
structure FileSet where
  Filename : Pos → String
  Fprint : Node → Except String String

/-- The struct `analysis.Pass`, with the fields the analyzer reads.  `Report`
is the output list of each function.  `IsPrintWide` is library data that is
not a field of the Go struct: the Unicode tables of `strconv.IsPrint` for the
runes above U+00FF. -/
structure Pass where
  Fset : FileSet
  Files : List Node
  TypesInfo : Info
  IsPrintWide : Char → Bool

/-- The method `(*analysis.Pass).Reportf` with the format of `checkBinExpr`,
`"float comparison found %q"`: the diagnostic it reports. -/
def Pass.ReportfFound (pass : Pass) (pos : Pos) (arg : String) : Diagnostic :=
  { Pos := pos, Message := "float comparison found " ++ Quote pass.IsPrintWide arg }

/-! ## floatcompare/analyzer.go -/

/-- The struct `floatcompare`: the two flags of the analyzer. -/
structure floatcompare where
  equalOnly : Bool
  skipTests : Bool
  deriving DecidableEq, Repr

/-- The function `render`: the printed form of a node, or a text naming the
error of the printer. -/
def render (fset : FileSet) (x : Node) : String :=
  match fset.Fprint x with
  | .error err => "ERROR during token parsing: " ++ err
  | .ok buf => buf

/-- The method `isFloat`. -/
def floatcompare.isFloat (_fc : floatcompare) (expr : Option Node) (pass : Pass) : Bool :=
  match pass.TypesInfo.TypeOf expr with
  | none => false
  | some t =>
    match t.Underlying with
    | .Basic bt =>
      if (bt.Info &&& IsFloat) = 0 then false
      else true
    | _ => false

/-- The method `checkBinExpr`: the diagnostics it reports. -/
def floatcompare.checkBinExpr (fc : floatcompare) (binExpr : BinaryExpr) (pass : Pass) :
    List Diagnostic :=
  if fc.equalOnly && !(binExpr.Op = Token.EQL || binExpr.Op = Token.NEQ) then []
  else if !(binExpr.Op = Token.EQL || binExpr.Op = Token.LEQ || binExpr.Op = Token.LSS ||
      binExpr.Op = Token.GEQ || binExpr.Op = Token.GTR || binExpr.Op = Token.NEQ) then []
  else if !fc.isFloat (some binExpr.X) pass || !fc.isFloat (some binExpr.Y) pass then []
  else [pass.ReportfFound binExpr.Pos (render pass.Fset binExpr.toNode)]

/-- The method `isCheckExpr`, on a node that may be `nil`: the diagnostics it
reports.  `expr.Tag.Pos()` on a `nil` tag is a nil dereference. -/
def floatcompare.isCheckExpr (fc : floatcompare) (node : Option Node) (pass : Pass) :
    Except String (List Diagnostic) :=
  match node with
  | some (.BinaryExpr X OpPos Op Y) =>
    .ok (fc.checkBinExpr { X := X, OpPos := OpPos, Op := Op, Y := Y } pass)
  | some (.SwitchStmt _ _ Tag _) =>
    if fc.isFloat Tag pass then
      match Tag with
      | some tag => .ok [{ Pos := tag.Pos, Message := "float comparison with switch statement" }]
      | none => .error "invalid memory address or nil pointer dereference"
    else .ok []
  | _ => .ok []

/-- The type of the function given to `ast.Inspect`: called on a node (or on
`nil` after the children of a node), it reports diagnostics and tells whether
the children are to be visited. -/
abbrev Visit := Option Node → Except String (List Diagnostic × Bool)

/-- The frame of `ast.Walk` around the children of a node:
`if v = v.Visit(node); v == nil { return }`, then the children (`kids`, what
walking them reports), then `v.Visit(nil)`.  With the visitor of
`ast.Inspect`, `Visit` calls `f` and goes on when `f` returns true. -/
def walkFrame (f : Visit) (node : Node) (kids : Except String (List Diagnostic)) :
    Except String (List Diagnostic) :=
  match f (some node) with
  | .error e => .error e
  | .ok (d, false) => .ok d
  | .ok (d, true) =>
    match kids with
    | .error e => .error e
    | .ok ks =>
      match f none with
      | .error e => .error e
      | .ok (d2, _) => .ok (d ++ ks ++ d2)

mutual
/-- The function `ast.Walk` with the visitor of `ast.Inspect`: the frame
`walkFrame` around the children of the node, in the order of `ast.Walk`. -/
def Walk (f : Visit) : Node → Except String (List Diagnostic)
  | .Ident NamePos Name => walkFrame f (.Ident NamePos Name) (.ok [])
  | .BasicLit ValuePos Kind Value => walkFrame f (.BasicLit ValuePos Kind Value) (.ok [])
  | .ParenExpr Lparen X Rparen => walkFrame f (.ParenExpr Lparen X Rparen) (Walk f X)
  | .SelectorExpr X Sel => walkFrame f (.SelectorExpr X Sel) (seq2 (Walk f X) (Walk f Sel))
  | .CallExpr Fun Lparen Args Rparen =>
    walkFrame f (.CallExpr Fun Lparen Args Rparen) (seq2 (Walk f Fun) (walkList f Args))
  | .UnaryExpr OpPos Op X => walkFrame f (.UnaryExpr OpPos Op X) (Walk f X)
  | .BinaryExpr X OpPos Op Y =>
    walkFrame f (.BinaryExpr X OpPos Op Y) (seq2 (Walk f X) (Walk f Y))
  | .ExprStmt X => walkFrame f (.ExprStmt X) (Walk f X)
  | .BlockStmt Lbrace Stmts Rbrace =>
    walkFrame f (.BlockStmt Lbrace Stmts Rbrace) (walkList f Stmts)
  | .IfStmt If Init Cond Body Else =>
    walkFrame f (.IfStmt If Init Cond Body Else)
      (seq2 (walkOpt f Init) (seq2 (Walk f Cond) (seq2 (Walk f Body) (walkOpt f Else))))
  | .CaseClause Case Exprs Colon Body =>
    walkFrame f (.CaseClause Case Exprs Colon Body) (seq2 (walkList f Exprs) (walkList f Body))
  | .SwitchStmt Switch Init Tag Body =>
    walkFrame f (.SwitchStmt Switch Init Tag Body)
      (seq2 (walkOpt f Init) (seq2 (walkOpt f Tag) (Walk f Body)))
  | .File Package Name Decls =>
    walkFrame f (.File Package Name Decls) (seq2 (Walk f Name) (walkList f Decls))
  | .Other pos children => walkFrame f (.Other pos children) (walkList f children)
/-- The helpers `walkList` of `go/ast`: `Walk` on each node of a list. -/
def walkList (f : Visit) : List Node → Except String (List Diagnostic)
  | [] => .ok []
  | x :: rest => seq2 (Walk f x) (walkList f rest)
/-- The guard `if n.Field != nil { Walk(v, n.Field) }` of `ast.Walk`. -/
def walkOpt (f : Visit) : Option Node → Except String (List Diagnostic)
  | none => .ok []
  | some n => Walk f n
end

/-- The function `ast.Inspect`: `Walk` with the visitor made of `f`. -/
def Inspect (node : Node) (f : Visit) : Except String (List Diagnostic) :=
  Walk f node

/-- The function literal that `run` gives to `ast.Inspect`:
`fc.isCheckExpr(node, pass); return true`. -/
def floatcompare.visit (fc : floatcompare) (pass : Pass) : Visit :=
  fun node =>
    match fc.isCheckExpr node pass with
    | .error e => .error e
    | .ok d => .ok (d, true)

/-- The loop `for _, f := range pass.Files` of `run`, on the files that are
left to visit: a file is skipped when `skipTests` is set and its name ends in
`_test.go`, else it is inspected. -/
def floatcompare.rangeFiles (fc : floatcompare) (pass : Pass) :
    List Node → Except String (List Diagnostic)
  | [] => .ok []
  | f :: rest =>
    if fc.skipTests && HasSuffix (pass.Fset.Filename f.Pos) "_test.go" then
      fc.rangeFiles pass rest
    else
      seq2 (Inspect f (fc.visit pass)) (fc.rangeFiles pass rest)

/-- What a call of `run` leaves behind: the diagnostics it reported and the
two values it returns, `(interface{}, error)`, where `none` is `nil`. -/
structure RunResult where
  diagnostics : List Diagnostic
  result : Option Unit
  err : Option String
  deriving DecidableEq, Repr

/-- The method `run`: it returns `nil, nil` after the loop over the files. -/
def floatcompare.run (fc : floatcompare) (pass : Pass) : Except String RunResult :=
  match fc.rangeFiles pass pass.Files with
  | .error e => .error e
  | .ok ds => .ok { diagnostics := ds, result := none, err := none }

/-- The diagnostics of a step: those it reported, none if it failed. -/
def reported (r : Except String (List Diagnostic)) : List Diagnostic :=
  match r with
  | .ok ds => ds
  | .error _ => []

/-- The diagnostic `checkBinExpr` reports for a binary expression: at the
position of the expression, with the quoted rendering of the expression. -/
def foundDiagnostic (pass : Pass) (b : BinaryExpr) : Diagnostic :=
  { Pos := b.toNode.Pos,
    Message := "float comparison found " ++ Quote pass.IsPrintWide (render pass.Fset b.toNode) }

/-- The diagnostic `isCheckExpr` reports for a switch statement with a
floating-point tag: at the position of the tag. -/
def switchDiagnostic (tag : Node) : Diagnostic :=
  { Pos := tag.Pos, Message := "float comparison with switch statement" }

/-- The six comparison operators `==`, `!=`, `<`, `<=`, `>`, `>=`. -/
def Token.isComparison (op : Token) : Prop :=
  op = .EQL ∨ op = .NEQ ∨ op = .LSS ∨ op = .LEQ ∨ op = .GTR ∨ op = .GEQ

/-- The four ordering operators `<`, `<=`, `>`, `>=`. -/
def Token.isOrdering (op : Token) : Prop :=
  op = .LSS ∨ op = .LEQ ∨ op = .GTR ∨ op = .GEQ

/-- A type declaration `type name rhs` (a defined type) or, with `isAlias`,
`type name = rhs` (an alias). -/
def declare (isAlias : Bool) (name : String) (rhs : GoType) : GoType :=
  if isAlias then .Alias name rhs else .Named name rhs

/-- A chain of type declarations over a base type: each declared type has
the next one as its right-hand side, the last one has `base`. -/
def declareChain : List (Bool × String) → GoType → GoType
  | [], base => base
  | (isAlias, name) :: rest, base => declare isAlias name (declareChain rest base)

/-- The same pass with other file names: `name` in place of
`fset.Position(p).Filename`. -/
def Pass.rename (pass : Pass) (name : Pos → String) : Pass :=
  { pass with Fset := { pass.Fset with Filename := name } }

/-- The same pass on another list of files. -/
def Pass.withFiles (pass : Pass) (files : List Node) : Pass :=
  { pass with Files := files }

/-- The children of a node, in the order in which `ast.Walk` visits them; a
field that is `nil` has no child. -/
def Node.children : Node → List Node
  | .Ident _ _ => []
  | .BasicLit _ _ _ => []
  | .ParenExpr _ X _ => [X]
  | .SelectorExpr X Sel => [X, Sel]
  | .CallExpr Fun _ Args _ => Fun :: Args
  | .UnaryExpr _ _ X => [X]
  | .BinaryExpr X _ _ Y => [X, Y]
  | .ExprStmt X => [X]
  | .BlockStmt _ Stmts _ => Stmts
  | .IfStmt _ Init Cond Body Else => Init.toList ++ Cond :: Body :: Else.toList
  | .CaseClause _ Exprs _ Body => Exprs ++ Body
  | .SwitchStmt _ Init Tag Body => Init.toList ++ (Tag.toList ++ [Body])
  | .File _ Name Decls => Name :: Decls
  | .Other _ children => children

/-- The node `n` appears in the tree of `root`: it is `root` itself, or it
appears in the tree of a child of `root`. -/
inductive Within : Node → Node → Prop where
  | self (n : Node) : Within n n
  | child (root c n : Node) : c ∈ root.children → Within c n → Within root n

/-- The diagnostics of a call of `run`: those it reported, none if it failed. -/
def floatcompare.diagnostics (fc : floatcompare) (pass : Pass) : List Diagnostic :=
  match fc.run pass with
  | .ok r => r.diagnostics
  | .error _ => []

mutual
/-- The nodes of a tree in pre-order: the node itself, then the nodes of its
children, child after child, each node of the tree once. -/
def preorder : Node → List Node
  | .Ident NamePos Name => [.Ident NamePos Name]
  | .BasicLit ValuePos Kind Value => [.BasicLit ValuePos Kind Value]
  | .ParenExpr Lparen X Rparen => .ParenExpr Lparen X Rparen :: preorder X
  | .SelectorExpr X Sel => .SelectorExpr X Sel :: (preorder X ++ preorder Sel)
  | .CallExpr Fun Lparen Args Rparen =>
    .CallExpr Fun Lparen Args Rparen :: (preorder Fun ++ preorderList Args)
  | .UnaryExpr OpPos Op X => .UnaryExpr OpPos Op X :: preorder X
  | .BinaryExpr X OpPos Op Y => .BinaryExpr X OpPos Op Y :: (preorder X ++ preorder Y)
  | .ExprStmt X => .ExprStmt X :: preorder X
  | .BlockStmt Lbrace Stmts Rbrace => .BlockStmt Lbrace Stmts Rbrace :: preorderList Stmts
  | .IfStmt If Init Cond Body Else =>
    .IfStmt If Init Cond Body Else ::
      (preorderOpt Init ++ (preorder Cond ++ (preorder Body ++ preorderOpt Else)))
  | .CaseClause Case Exprs Colon Body =>
    .CaseClause Case Exprs Colon Body :: (preorderList Exprs ++ preorderList Body)
  | .SwitchStmt Switch Init Tag Body =>
    .SwitchStmt Switch Init Tag Body ::
      (preorderOpt Init ++ (preorderOpt Tag ++ preorder Body))
  | .File Package Name Decls => .File Package Name Decls :: (preorder Name ++ preorderList Decls)
  | .Other pos children => .Other pos children :: preorderList children
/-- The nodes of a list of trees in pre-order, tree after tree. -/
def preorderList : List Node → List Node
  | [] => []
  | x :: rest => preorder x ++ preorderList rest
/-- The nodes of a tree that may be absent. -/
def preorderOpt : Option Node → List Node
  | none => []
  | some n => preorder n
end

/-- The diagnostics of one node, in the words of the specification: one for
a binary expression that matches (its operator is a comparison operator, one
of `==` and `!=` when `equalOnly` is set, and both operands classify as
floating-point), one for a switch statement whose tag is present and
classifies as floating-point, none for a node of any other kind. -/
def nodeDiagnostics (fc : floatcompare) (pass : Pass) : Node → List Diagnostic
  | .BinaryExpr X OpPos Op Y =>
    if (Op = .EQL ∨ Op = .NEQ ∨
          (fc.equalOnly = false ∧ (Op = .LSS ∨ Op = .LEQ ∨ Op = .GTR ∨ Op = .GEQ))) ∧
        fc.isFloat (some X) pass = true ∧ fc.isFloat (some Y) pass = true then
      [{ Pos := (Node.BinaryExpr X OpPos Op Y).Pos,
         Message := "float comparison found " ++
           Quote pass.IsPrintWide (render pass.Fset (.BinaryExpr X OpPos Op Y)) }]
    else []
  | .SwitchStmt _ _ (some tag) _ =>
    if fc.isFloat (some tag) pass = true then
      [{ Pos := tag.Pos, Message := "float comparison with switch statement" }]
    else []
  | _ => []

/-- The file is a test file for `run`: its name ends in `_test.go`. -/
def isTestFile (pass : Pass) (f : Node) : Bool :=
  HasSuffix (pass.Fset.Filename f.Pos) "_test.go"

/-- The files of the pass that `run` does not skip, in the order of the
pass: all of them, or those that are not test files when `skipTests` is set. -/
def analysed (fc : floatcompare) (pass : Pass) : List Node :=
  pass.Files.filter (fun f => !(fc.skipTests && isTestFile pass f))

/-- The node is a binary expression with one of the ordering operators `<`,
`<=`, `>`, `>=`. -/
def Node.isOrderingExpr : Node → Bool
  | .BinaryExpr _ _ Op _ => Op = .LSS || Op = .LEQ || Op = .GTR || Op = .GEQ
  | _ => false

/-- The node is a switch statement. -/
def Node.isSwitchStmt : Node → Bool
  | .SwitchStmt _ _ _ _ => true
  | _ => false

/-- The visitor that reports `g node` on every node, nothing on `nil`, and
always goes on to the children. -/
def visitAll (g : Node → List Diagnostic) : Visit :=
  fun node =>
    match node with
    | some n => .ok (g n, true)
    | none => .ok ([], true)

/-! ## Test data: `testdata/src/all-comparison/demo.go` -/

/-- The declaration of `EqualCompareIfFloats` of `testdata/src/all-comparison/demo.go` (line 3). -/
def demoEqualCompareIfFloats : Node :=
  .Other 15 [
    .Ident 20 "EqualCompareIfFloats",
    .Other 15 [
      .Other 40 []],
    .BlockStmt 43 [
      .Other 46 [
        .Ident 46 "x",
        .Ident 49 "y",
        .BasicLit 54 .FLOAT "400.",
        .BasicLit 60 .FLOAT "500."],
      .IfStmt 66 none (.BinaryExpr (.BasicLit 69 .FLOAT "300.") 74 .EQL (.BasicLit 77 .FLOAT "100.")) (
        .BlockStmt 82 [
          .ExprStmt (.CallExpr (.Ident 86 "dummy") 91 [] 92)] 95) none,
      .IfStmt 98 none (.BinaryExpr (.Ident 101 "x") 103 .EQL (.Ident 106 "y")) (
        .BlockStmt 108 [
          .ExprStmt (.CallExpr (.Ident 112 "dummy") 117 [] 118)] 121) none,
      .IfStmt 124 none (.BinaryExpr (.BinaryExpr (.BasicLit 127 .FLOAT "300.") 131 .ADD (.BasicLit 132 .FLOAT "200.")) 137 .EQL (.BasicLit 140 .FLOAT "10.")) (
        .BlockStmt 144 [
          .ExprStmt (.CallExpr (.Ident 148 "dummy") 153 [] 154)] 157) none,
      .IfStmt 160 none (.BinaryExpr (.BasicLit 163 .INT "300") 167 .EQL (.BasicLit 170 .INT "200")) (
        .BlockStmt 174 [
          .ExprStmt (.CallExpr (.Ident 178 "dummy") 183 [] 184)] 187) none] 189]

/-- The declaration of `NotEqualCompareIfFloats` of `testdata/src/all-comparison/demo.go` (line 19). -/
def demoNotEqualCompareIfFloats : Node :=
  .Other 192 [
    .Ident 197 "NotEqualCompareIfFloats",
    .Other 192 [
      .Other 220 []],
    .BlockStmt 223 [
      .Other 226 [
        .Ident 226 "x",
        .Ident 229 "y",
        .BasicLit 234 .FLOAT "400.",
        .BasicLit 240 .FLOAT "500."],
      .IfStmt 246 none (.BinaryExpr (.BasicLit 249 .FLOAT "300.") 254 .NEQ (.BasicLit 257 .FLOAT "100.")) (
        .BlockStmt 262 [
          .ExprStmt (.CallExpr (.Ident 267 "dummy") 272 [] 273)] 276) none,
      .IfStmt 279 none (.BinaryExpr (.Ident 282 "x") 284 .NEQ (.Ident 287 "y")) (
        .BlockStmt 289 [
          .ExprStmt (.CallExpr (.Ident 293 "dummy") 298 [] 299)] 302) none] 304]

/-- The declaration of `EqualCompareIfCustomType` of `testdata/src/all-comparison/demo.go` (line 30). -/
def demoEqualCompareIfCustomType : Node :=
  .Other 307 [
    .Ident 312 "EqualCompareIfCustomType",
    .Other 307 [
      .Other 336 []],
    .BlockStmt 339 [
      .Other 342 [
        .Other 342 [
          .Other 347 [
            .Ident 347 "number",
            .Ident 354 "float64"]]],
      .Other 363 [
        .Other 363 [
          .Other 367 [
            .Ident 367 "x",
            .Ident 370 "y",
            .Ident 372 "number",
            .BasicLit 381 .FLOAT "300.",
            .BasicLit 387 .FLOAT "400."]]],
      .IfStmt 393 none (.BinaryExpr (.Ident 396 "x") 398 .EQL (.Ident 401 "y")) (
        .BlockStmt 403 [
          .ExprStmt (.CallExpr (.Ident 407 "dummy") 412 [] 413)] 416) none] 418]

/-- The declaration of `EqualCompareIfFunctions` of `testdata/src/all-comparison/demo.go` (line 38). -/
def demoEqualCompareIfFunctions : Node :=
  .Other 421 [
    .Ident 426 "EqualCompareIfFunctions",
    .Other 421 [
      .Other 449 []],
    .BlockStmt 452 [
      .IfStmt 455 none (.BinaryExpr (.CallExpr (.Ident 458 "dummy") 463 [] 464) 466 .EQL (.CallExpr (.Ident 469 "dummy") 474 [] 475)) (
        .BlockStmt 477 [
          .ExprStmt (.CallExpr (.Ident 481 "dummy") 486 [] 487)] 490) none] 492]

/-- The declaration of `EqualCompareIfNotSimpleType` of `testdata/src/all-comparison/demo.go` (line 44). -/
def demoEqualCompareIfNotSimpleType : Node :=
  .Other 495 [
    .Ident 500 "EqualCompareIfNotSimpleType",
    .Other 495 [
      .Other 527 []],
    .BlockStmt 530 [
      .Other 533 [
        .Other 533 [
          .Other 538 [
            .Ident 538 "demo",
            .Other 543 [
              .Other 550 [
                .Other 554 [
                  .Ident 554 "x",
                  .Ident 556 "float64"],
                .Other 566 [
                  .Ident 566 "y",
                  .Ident 568 "float64"]]]]]],
      .Other 581 [
        .Ident 581 "k",
        .Other 586 [
          .Ident 586 "demo",
          .BasicLit 591 .FLOAT "10.",
          .BasicLit 596 .FLOAT "20."]],
      .Other 602 [
        .Ident 602 "j",
        .Other 607 [
          .Ident 607 "demo",
          .BasicLit 612 .FLOAT "22.",
          .BasicLit 617 .FLOAT "33."]],
      .IfStmt 624 none (.BinaryExpr (.Ident 627 "k") 629 .EQL (.Ident 632 "j")) (
        .BlockStmt 634 [
          .ExprStmt (.CallExpr (.Ident 638 "dummy") 643 [] 644)] 647) none] 649]

/-- The declaration of `GreaterLessCompareIfFloats` of `testdata/src/all-comparison/demo.go` (line 58). -/
def demoGreaterLessCompareIfFloats : Node :=
  .Other 652 [
    .Ident 657 "GreaterLessCompareIfFloats",
    .Other 652 [
      .Other 683 []],
    .BlockStmt 686 [
      .IfStmt 689 none (.BinaryExpr (.BasicLit 692 .FLOAT "300.") 697 .GEQ (.BasicLit 700 .FLOAT "100.")) (
        .BlockStmt 705 [
          .ExprStmt (.CallExpr (.Ident 709 "dummy") 714 [] 715)] 718) none,
      .IfStmt 721 none (.BinaryExpr (.BasicLit 724 .FLOAT "300.") 729 .LEQ (.BasicLit 732 .FLOAT "100.")) (
        .BlockStmt 737 [
          .ExprStmt (.CallExpr (.Ident 741 "dummy") 746 [] 747)] 750) none,
      .IfStmt 753 none (.BinaryExpr (.BasicLit 756 .FLOAT "300.") 761 .LSS (.BasicLit 763 .FLOAT "100.")) (
        .BlockStmt 768 [
          .ExprStmt (.CallExpr (.Ident 772 "dummy") 777 [] 778)] 781) none,
      .IfStmt 784 none (.BinaryExpr (.BasicLit 787 .FLOAT "300.") 792 .GTR (.BasicLit 794 .FLOAT "100.")) (
        .BlockStmt 799 [
          .ExprStmt (.CallExpr (.Ident 803 "dummy") 808 [] 809)] 812) none] 814]

/-- The declaration of `SwitchStmtWithFloat` of `testdata/src/all-comparison/demo.go` (line 73). -/
def demoSwitchStmtWithFloat : Node :=
  .Other 817 [
    .Ident 822 "SwitchStmtWithFloat",
    .Other 817 [
      .Other 841 []],
    .BlockStmt 844 [
      .SwitchStmt 847 none (some (
        .BasicLit 854 .FLOAT "300.")) (
        .BlockStmt 859 [
          .CaseClause 862 [
            .BasicLit 867 .FLOAT "100."] 871 [],
          .CaseClause 874 [
            .BasicLit 879 .INT "200"] 882 []] 885)] 887]

/-- The declaration of `EqualCompareSwitchFloats` of `testdata/src/all-comparison/demo.go` (line 80). -/
def demoEqualCompareSwitchFloats : Node :=
  .Other 890 [
    .Ident 895 "EqualCompareSwitchFloats",
    .Other 890 [
      .Other 919 []],
    .BlockStmt 922 [
      .SwitchStmt 925 none none (
        .BlockStmt 932 [
          .CaseClause 935 [
            .BinaryExpr (.BasicLit 940 .FLOAT "100.") 945 .EQL (.BasicLit 948 .FLOAT "200.")] 952 []] 955)] 957]

/-- The declaration of `NotEqualCompareSwitchFloats` of `testdata/src/all-comparison/demo.go` (line 86). -/
def demoNotEqualCompareSwitchFloats : Node :=
  .Other 960 [
    .Ident 965 "NotEqualCompareSwitchFloats",
    .Other 960 [
      .Other 992 []],
    .BlockStmt 995 [
      .SwitchStmt 998 none none (
        .BlockStmt 1005 [
          .CaseClause 1008 [
            .BinaryExpr (.BasicLit 1013 .FLOAT "100.") 1018 .NEQ (.BasicLit 1021 .FLOAT "200.")] 1025 []] 1028)] 1030]

/-- The declaration of `GreaterLessCompareSwitchFloats` of `testdata/src/all-comparison/demo.go` (line 92). -/
def demoGreaterLessCompareSwitchFloats : Node :=
  .Other 1033 [
    .Ident 1038 "GreaterLessCompareSwitchFloats",
    .Other 1033 [
      .Other 1068 []],
    .BlockStmt 1071 [
      .SwitchStmt 1074 none none (
        .BlockStmt 1081 [
          .CaseClause 1084 [
            .BinaryExpr (.BasicLit 1089 .FLOAT "100.") 1094 .LEQ (.BasicLit 1097 .FLOAT "200.")] 1101 [],
          .CaseClause 1104 [
            .BinaryExpr (.BasicLit 1109 .FLOAT "100.") 1114 .LSS (.BasicLit 1116 .FLOAT "200.")] 1120 [],
          .CaseClause 1123 [
            .BinaryExpr (.BasicLit 1128 .FLOAT "100.") 1133 .GEQ (.BasicLit 1136 .FLOAT "200.")] 1140 [],
          .CaseClause 1143 [
            .BinaryExpr (.BasicLit 1148 .FLOAT "100.") 1153 .GTR (.BasicLit 1155 .FLOAT "200.")] 1159 []] 1163)] 1165]

/-- The declaration of `dummy` of `testdata/src/all-comparison/demo.go` (line 102). -/
def demodummy : Node :=
  .Other 1168 [
    .Ident 1173 "dummy",
    .Other 1168 [
      .Other 1178 [],
      .Other 1181 [
        .Other 1181 [
          .Ident 1181 "float64"]]],
    .BlockStmt 1189 [
      .Other 1191 [
        .BasicLit 1198 .FLOAT "10."]] 1202]

/-- The file `testdata/src/all-comparison/demo.go`, as `go/parser` reads it; a
position is the offset in the file plus one. -/
def demoFile : Node :=
  .File 1 (.Ident 9 "main") [
    demoEqualCompareIfFloats,
    demoNotEqualCompareIfFloats,
    demoEqualCompareIfCustomType,
    demoEqualCompareIfFunctions,
    demoEqualCompareIfNotSimpleType,
    demoGreaterLessCompareIfFloats,
    demoSwitchStmtWithFloat,
    demoEqualCompareSwitchFloats,
    demoNotEqualCompareSwitchFloats,
    demoGreaterLessCompareSwitchFloats,
    demodummy]

/-- The type `float64`. -/
def float64 : GoType := .Basic .Float64

/-- The type `number` of `EqualCompareIfCustomType`: `type number float64`. -/
def demoNumber : GoType := .Named "number" float64

/-- The type `demo` of `EqualCompareIfNotSimpleType`:
`type demo struct { x float64; y float64 }`. -/
def demoStruct : GoType := .Named "demo" (.Struct [("x", float64), ("y", float64)])

/-- The type of the function `dummy`: `func() float64`. -/
def demoDummySig : GoType := .Signature [] [float64]

/-- The types of the identifiers of `demo.go` that are used in an expression
or as a type, by position: `x` and `y` are `float64`, and `number` inside
`EqualCompareIfCustomType`; `k` and `j` are `demo`. -/
def demoUseType (p : Pos) (name : String) : Option GoType :=
  if name = "dummy" && p != 1173 then some demoDummySig
  else if name = "float64" then some float64
  else if name = "number" && p = 372 then some demoNumber
  else if name = "demo" && (p = 586 || p = 607) then some demoStruct
  else if (name = "x" || name = "y") && [101, 106, 282, 287].contains p then some float64
  else if (name = "x" || name = "y") && [396, 401].contains p then some demoNumber
  else if (name = "k" || name = "j") && [627, 632].contains p then some demoStruct
  else none

/-- The types of the objects that the identifiers of `demo.go` declare, by
position of the declaring identifier. -/
def demoDefType (p : Pos) (name : String) : Option GoType :=
  if name = "dummy" && p = 1173 then some demoDummySig
  else if [20, 197, 312, 426, 500, 657, 822, 895, 965, 1038].contains p then some (.Signature [] [])
  else if [46, 49, 226, 229, 554, 566].contains p then some float64
  else if [367, 370].contains p || (name = "number" && p = 347) then some demoNumber
  else if [581, 602].contains p || (name = "demo" && p = 538) then some demoStruct
  else none

/-- The map `Types` for `demo.go`.  A literal that is assigned, returned, a
field value, a switch tag or a case value has the type of its context; the
constant operands of a comparison stay untyped. -/
def demoTypes : Node → Option GoType
  | .BasicLit p kind _ =>
    if [381, 387].contains p then some demoNumber
    else if [54, 60, 234, 240, 591, 596, 612, 617, 854, 867, 879, 1198].contains p then
      some float64
    else
      match kind with
      | .FLOAT => some (.Basic .UntypedFloat)
      | .INT => some (.Basic .UntypedInt)
      | _ => none
  | .Ident p name => demoUseType p name
  | .CallExpr (.Ident _ "dummy") _ [] _ => some float64
  | .BinaryExpr _ _ op _ =>
    if op = .ADD then some (.Basic .UntypedFloat) else some (.Basic .UntypedBool)
  | .Other p (.Ident _ "demo" :: _) => if p = 586 || p = 607 then some demoStruct else none
  | _ => none

/-- The type information of `demo.go`. -/
def demoInfo : Info where
  Types := demoTypes
  Defs := fun n =>
    match n with
    | .Ident p name => (demoDefType p name).map (fun t => { Typ := some t })
    | _ => none
  Uses := fun n =>
    match n with
    | .Ident p name => (demoUseType p name).map (fun t => { Typ := some t })
    | _ => none

/-- What `go/printer` writes for an operand of the comparisons of `demo.go`:
inside a comparison, an addition is printed without blanks. -/
def demoOperand : Node → String
  | .Ident _ name => name
  | .BasicLit _ _ value => value
  | .CallExpr Fun _ _ _ => demoOperand Fun ++ "()"
  | .BinaryExpr X _ op Y => demoOperand X ++ op.String ++ demoOperand Y
  | _ => ""

/-- What `printer.Fprint` writes for the expressions of `demo.go`: a
comparison has a blank on each side of its operator. -/
def demoFprint : Node → Except String String
  | .BinaryExpr X _ op Y => .ok (demoOperand X ++ " " ++ op.String ++ " " ++ demoOperand Y)
  | n => .ok (demoOperand n)

/-- The file set of the test: `demo.go` is its one file, of 1202 bytes, and
`demoName` is the name of the file. -/
def demoFset (demoName : String) : FileSet where
  Filename := fun p => if 1 ≤ p ∧ p ≤ 1203 then demoName else ""
  Fprint := demoFprint

/-- The pass on `demo.go` alone, the file having the name `demoName`.  The
expressions of the file are ASCII, so the table of wide runes is not
consulted. -/
def demoPass (demoName : String) : Pass where
  Fset := demoFset demoName
  Files := [demoFile]
  TypesInfo := demoInfo
  IsPrintWide := fun _ => false

/-- The comparison `x == y` of `EqualCompareIfFloats` (line 8). -/
def demoCmpFloats : BinaryExpr :=
  { X := .Ident 101 "x", OpPos := 103, Op := .EQL, Y := .Ident 106 "y" }

/-- The addition `300.+200.` of `EqualCompareIfFloats` (line 11). -/
def demoAdd : BinaryExpr :=
  { X := .BasicLit 127 .FLOAT "300.", OpPos := 131, Op := .ADD, Y := .BasicLit 132 .FLOAT "200." }

/-- The comparison `300 == 200` of `EqualCompareIfFloats` (line 14). -/
def demoCmpInts : BinaryExpr :=
  { X := .BasicLit 163 .INT "300", OpPos := 167, Op := .EQL, Y := .BasicLit 170 .INT "200" }

/-- The comparison `x == y` of `EqualCompareIfCustomType` (line 33). -/
def demoCmpCustom : BinaryExpr :=
  { X := .Ident 396 "x", OpPos := 398, Op := .EQL, Y := .Ident 401 "y" }

/-- The comparison `dummy() == dummy()` of `EqualCompareIfFunctions` (line 39). -/
def demoCmpCalls : BinaryExpr :=
  { X := .CallExpr (.Ident 458 "dummy") 463 [] 464, OpPos := 466, Op := .EQL,
    Y := .CallExpr (.Ident 469 "dummy") 474 [] 475 }

/-- The comparison `k == j` of `EqualCompareIfNotSimpleType` (line 53). -/
def demoCmpStruct : BinaryExpr :=
  { X := .Ident 627 "k", OpPos := 629, Op := .EQL, Y := .Ident 632 "j" }

/-- The comparison `300. >= 100.` of `GreaterLessCompareIfFloats` (line 59). -/
def demoCmpGeq : BinaryExpr :=
  { X := .BasicLit 692 .FLOAT "300.", OpPos := 697, Op := .GEQ, Y := .BasicLit 700 .FLOAT "100." }

/-- The comparison `100. == 200.` of `EqualCompareSwitchFloats` (line 82). -/
def demoCmpCase : BinaryExpr :=
  { X := .BasicLit 940 .FLOAT "100.", OpPos := 945, Op := .EQL, Y := .BasicLit 948 .FLOAT "200." }

/-- The comparison `x == y` of the file `nested.go` below. -/
def nestedCmp : Node := .BinaryExpr (.Ident 83 "x") 85 .EQL (.Ident 88 "y")

/-- The switch statement of the file `nested.go` below: a floating-point tag,
and a floating-point comparison in the body of its case clause. -/
def nestedSwitch : Node :=
  .SwitchStmt 52 none (some (.BasicLit 59 .FLOAT "300.")) (
    .BlockStmt 64 [
      .CaseClause 67 [.BasicLit 72 .FLOAT "100."] 76 [
        .IfStmt 80 none nestedCmp (.BlockStmt 90 [] 94) none]] 97)

/-- A second test file, `nested.go`, with a comparison inside a switch
statement on a floating-point tag; a position is the offset in the file plus
one.
```
package main

func nested() {
	x, y := 400., 500.
	switch 300. {
	case 100.:
		if x == y {
		}
	}
}
```
-/
def nestedFile : Node :=
  .File 1 (.Ident 9 "main") [
    .Other 15 [
      .Ident 20 "nested",
      .Other 15 [
        .Other 26 []],
      .BlockStmt 29 [
        .Other 32 [
          .Ident 32 "x",
          .Ident 35 "y",
          .BasicLit 40 .FLOAT "400.",
          .BasicLit 46 .FLOAT "500."],
        nestedSwitch] 99]]

/-- The type information of `nested.go`: the literals and the variables `x`
and `y` are `float64`, the comparison is an untyped boolean. -/
def nestedInfo : Info where
  Types := fun n =>
    match n with
    | .BasicLit _ .FLOAT _ => some float64
    | .Ident p name =>
      if (name = "x" && p = 83) || (name = "y" && p = 88) then some float64 else none
    | .BinaryExpr _ _ _ _ => some (.Basic .UntypedBool)
    | _ => none
  Defs := fun n =>
    match n with
    | .Ident p name =>
      if (name = "x" && p = 32) || (name = "y" && p = 35) then some { Typ := some float64 }
      else if name = "nested" && p = 20 then some { Typ := some (.Signature [] []) }
      else none
    | _ => none
  Uses := fun n =>
    match n with
    | .Ident p name =>
      if (name = "x" && p = 83) || (name = "y" && p = 88) then some { Typ := some float64 }
      else none
    | _ => none

/-- The pass on `nested.go` alone, a file of 100 bytes. -/
def nestedPass : Pass where
  Fset :=
    { Filename := fun p => if 1 ≤ p ∧ p ≤ 101 then "nested.go" else "",
      Fprint := demoFprint }
  Files := [nestedFile]
  TypesInfo := nestedInfo
  IsPrintWide := fun _ => false

/-- The comparison `width("a\n") == x` of the file `quoted.go` below; the
value of the string literal is its source text, quotes and backslash
included. -/
def quotedCmp : BinaryExpr :=
  { X := .CallExpr (.Ident 53 "width") 58 [.BasicLit 59 .STRING "\"a\\n\""] 64,
    OpPos := 66, Op := .EQL, Y := .Ident 69 "x" }

/-- A third test file, `quoted.go`, with a comparison whose printed form has
double quotes and a backslash; `width` is a function of another file, of
type `func(string) float64`; a position is the offset in the file plus one.
```
package main

func quoted(x float64) bool {
	return width("a\n") == x
}
```
-/
def quotedFile : Node :=
  .File 1 (.Ident 9 "main") [
    .Other 15 [
      .Ident 20 "quoted",
      .Other 15 [
        .Other 26 [
          .Other 27 [
            .Ident 27 "x",
            .Ident 29 "float64"]],
        .Other 38 [
          .Other 38 [
            .Ident 38 "bool"]]],
      .BlockStmt 43 [
        .Other 46 [
          quotedCmp.toNode]] 71]]

/-- The type information of `quoted.go`: the call and `x` are `float64`, the
literal is a `string`, the comparison is the `bool` that is returned. -/
def quotedInfo : Info where
  Types := fun n =>
    match n with
    | .BasicLit _ .STRING _ => some (.Basic .String)
    | .Ident p name =>
      if name = "x" && p = 69 then some float64
      else if name = "float64" then some float64
      else if name = "bool" then some (.Basic .Bool)
      else if name = "width" then some (.Signature [.Basic .String] [float64])
      else none
    | .CallExpr (.Ident _ "width") _ _ _ => some float64
    | .BinaryExpr _ _ _ _ => some (.Basic .Bool)
    | _ => none
  Defs := fun n =>
    match n with
    | .Ident p name =>
      if name = "x" && p = 27 then some { Typ := some float64 }
      else if name = "quoted" && p = 20 then
        some { Typ := some (.Signature [float64] [.Basic .Bool]) }
      else none
    | _ => none
  Uses := fun n =>
    match n with
    | .Ident p name =>
      if name = "x" && p = 69 then some { Typ := some float64 }
      else if name = "width" && p = 53 then
        some { Typ := some (.Signature [.Basic .String] [float64]) }
      else none
    | _ => none

/-- What `printer.Fprint` writes for the expressions of `quoted.go`: a call
with one literal argument compared with an identifier is printed as in the
source, any other node as in `demo.go`. -/
def quotedFprint : Node → Except String String
  | .BinaryExpr (.CallExpr (.Ident _ callee) _ [.BasicLit _ _ arg] _) _ op (.Ident _ name) =>
    .ok (callee ++ "(" ++ arg ++ ") " ++ op.String ++ " " ++ name)
  | n => demoFprint n

/-- The pass on `quoted.go` alone, a file of 72 bytes. -/
def quotedPass : Pass where
  Fset :=
    { Filename := fun p => if 1 ≤ p ∧ p ≤ 73 then "quoted.go" else "",
      Fprint := quotedFprint }
  Files := [quotedFile]
  TypesInfo := quotedInfo
  IsPrintWide := fun _ => false

/-! ## Basic facts -/

theorem seq2_ok (a b : List Diagnostic) : seq2 (.ok a) (.ok b) = .ok (a ++ b) := rfl

theorem isFloat_nil (fc : floatcompare) (pass : Pass) : fc.isFloat none pass = false := rfl

theorem isFloat_of_TypeOf_none (fc : floatcompare) (pass : Pass) (expr : Option Node)
    (h : pass.TypesInfo.TypeOf expr = none) : fc.isFloat expr pass = false := by
  simp [floatcompare.isFloat, h]

theorem checkBinExpr_float (fc : floatcompare) (pass : Pass) (b : BinaryExpr)
    (hop : fc.equalOnly = false ∧ b.Op.isComparison ∨ b.Op = .EQL ∨ b.Op = .NEQ)
    (hX : fc.isFloat (some b.X) pass = true) (hY : fc.isFloat (some b.Y) pass = true) :
    fc.checkBinExpr b pass = [foundDiagnostic pass b] := by
  have hd : pass.ReportfFound b.Pos (render pass.Fset b.toNode) = foundDiagnostic pass b := rfl
  rcases hop with ⟨he, h⟩ | h | h
  · rcases h with h | h | h | h | h | h <;>
      simp [floatcompare.checkBinExpr, he, h, hX, hY, hd]
  · simp [floatcompare.checkBinExpr, h, hX, hY, hd]
  · simp [floatcompare.checkBinExpr, h, hX, hY, hd]

theorem checkBinExpr_not_float (fc : floatcompare) (pass : Pass) (b : BinaryExpr)
    (h : fc.isFloat (some b.X) pass = false ∨ fc.isFloat (some b.Y) pass = false) :
    fc.checkBinExpr b pass = [] := by
  unfold floatcompare.checkBinExpr
  split_ifs <;> first | rfl | (rcases h with h | h <;> simp_all)

theorem isCheckExpr_ok (fc : floatcompare) (pass : Pass) (node : Option Node) :
    fc.isCheckExpr node pass = .ok (reported (fc.isCheckExpr node pass)) := by
  unfold floatcompare.isCheckExpr
  split
  · rfl
  · rename_i Tag _
    cases Tag with
    | none => simp [isFloat_nil, reported]
    | some tag => split <;> rfl
  · rfl

theorem visit_ok (fc : floatcompare) (pass : Pass) (node : Option Node) :
    fc.visit pass node = .ok (reported (fc.isCheckExpr node pass), true) := by
  unfold floatcompare.visit
  rw [isCheckExpr_ok]
  rfl

theorem walkFrame_ok (fc : floatcompare) (pass : Pass) (node : Node) (ks : List Diagnostic) :
    walkFrame (fc.visit pass) node (.ok ks) =
      .ok (reported (fc.isCheckExpr (some node) pass) ++ ks ++
        reported (fc.isCheckExpr none pass)) := by
  simp [walkFrame, visit_ok]

mutual
theorem Walk_ok (fc : floatcompare) (pass : Pass) :
    ∀ node : Node, Walk (fc.visit pass) node = .ok (reported (Walk (fc.visit pass) node))
  | .Ident _ _ => by rw [Walk, walkFrame_ok]; rfl
  | .BasicLit _ _ _ => by rw [Walk, walkFrame_ok]; rfl
  | .ParenExpr _ X _ => by
    rw [Walk, Walk_ok fc pass X, walkFrame_ok]; rfl
  | .SelectorExpr X Sel => by
    rw [Walk, Walk_ok fc pass X, Walk_ok fc pass Sel, seq2_ok, walkFrame_ok]; rfl
  | .CallExpr Fun _ Args _ => by
    rw [Walk, Walk_ok fc pass Fun, walkList_ok fc pass Args, seq2_ok, walkFrame_ok]; rfl
  | .UnaryExpr _ _ X => by
    rw [Walk, Walk_ok fc pass X, walkFrame_ok]; rfl
  | .BinaryExpr X _ _ Y => by
    rw [Walk, Walk_ok fc pass X, Walk_ok fc pass Y, seq2_ok, walkFrame_ok]; rfl
  | .ExprStmt X => by
    rw [Walk, Walk_ok fc pass X, walkFrame_ok]; rfl
  | .BlockStmt _ Stmts _ => by
    rw [Walk, walkList_ok fc pass Stmts, walkFrame_ok]; rfl
  | .IfStmt _ Init Cond Body Else => by
    rw [Walk, walkOpt_ok fc pass Init, Walk_ok fc pass Cond, Walk_ok fc pass Body,
      walkOpt_ok fc pass Else, seq2_ok, seq2_ok, seq2_ok, walkFrame_ok]; rfl
  | .CaseClause _ Exprs _ Body => by
    rw [Walk, walkList_ok fc pass Exprs, walkList_ok fc pass Body, seq2_ok, walkFrame_ok]; rfl
  | .SwitchStmt _ Init Tag Body => by
    rw [Walk, walkOpt_ok fc pass Init, walkOpt_ok fc pass Tag, Walk_ok fc pass Body,
      seq2_ok, seq2_ok, walkFrame_ok]; rfl
  | .File _ Name Decls => by
    rw [Walk, Walk_ok fc pass Name, walkList_ok fc pass Decls, seq2_ok, walkFrame_ok]; rfl
  | .Other _ children => by
    rw [Walk, walkList_ok fc pass children, walkFrame_ok]; rfl
theorem walkList_ok (fc : floatcompare) (pass : Pass) :
    ∀ list : List Node,
      walkList (fc.visit pass) list = .ok (reported (walkList (fc.visit pass) list))
  | [] => by rw [walkList]; rfl
  | x :: rest => by
    rw [walkList, Walk_ok fc pass x, walkList_ok fc pass rest, seq2_ok]; rfl
theorem walkOpt_ok (fc : floatcompare) (pass : Pass) :
    ∀ node : Option Node,
      walkOpt (fc.visit pass) node = .ok (reported (walkOpt (fc.visit pass) node))
  | none => by rw [walkOpt]; rfl
  | some n => by
    rw [walkOpt, Walk_ok fc pass n]; rfl
end

theorem rangeFiles_ok (fc : floatcompare) (pass : Pass) :
    ∀ files : List Node,
      fc.rangeFiles pass files = .ok (reported (fc.rangeFiles pass files))
  | [] => by rw [floatcompare.rangeFiles]; rfl
  | f :: rest => by
    rw [floatcompare.rangeFiles]
    split
    · exact rangeFiles_ok fc pass rest
    · rw [Inspect, Walk_ok fc pass f, rangeFiles_ok fc pass rest, seq2_ok]; rfl

theorem rangeFiles_append (fc : floatcompare) (pass : Pass) (fs2 : List Node) :
    ∀ fs1 : List Node,
      fc.rangeFiles pass (fs1 ++ fs2) =
        .ok (reported (fc.rangeFiles pass fs1) ++ reported (fc.rangeFiles pass fs2))
  | [] => by
    rw [List.nil_append, rangeFiles_ok fc pass fs2]; rfl
  | f :: rest => by
    rw [List.cons_append, floatcompare.rangeFiles, floatcompare.rangeFiles]
    split
    · exact rangeFiles_append fc pass fs2 rest
    · rw [rangeFiles_append fc pass fs2 rest, Inspect, Walk_ok fc pass f,
        rangeFiles_ok fc pass rest, seq2_ok, seq2_ok]
      simp [reported]

theorem run_eq (fc : floatcompare) (pass : Pass) :
    fc.run pass =
      .ok { diagnostics := reported (fc.rangeFiles pass pass.Files), result := none, err := none } := by
  rw [floatcompare.run, rangeFiles_ok fc pass pass.Files]; rfl

theorem Underlying_declareChain (base : GoType) :
    ∀ chain : List (Bool × String), (declareChain chain base).Underlying = base.Underlying
  | [] => rfl
  | (isAlias, name) :: rest => by
    have h := Underlying_declareChain base rest
    cases isAlias <;> simpa [declareChain, declare, GoType.Underlying] using h

theorem HasSuffix_append (stem suffix : String) : HasSuffix (stem ++ suffix) suffix = true := by
  simp [HasSuffix]

theorem HasSuffix_iff (s suffix : String) :
    HasSuffix s suffix = true ↔ ∃ stem : String, s = stem ++ suffix := by
  constructor
  · intro h
    simp only [HasSuffix, Bool.and_eq_true, decide_eq_true_eq] at h
    refine ⟨String.mk (s.data.take (s.data.length - suffix.data.length)), ?_⟩
    apply String.ext
    have key := (List.take_append_drop (s.data.length - suffix.data.length) s.data).symm
    rw [h.2] at key
    rw [String.data_append]
    exact key
  · rintro ⟨stem, rfl⟩
    exact HasSuffix_append stem suffix

theorem seq2_nil_right (a : Except String (List Diagnostic)) : seq2 a (.ok []) = a := by
  cases a <;> simp [seq2]

theorem seq2_assoc (a b c : Except String (List Diagnostic)) :
    seq2 (seq2 a b) c = seq2 a (seq2 b c) := by
  cases a <;> cases b <;> cases c <;> simp [seq2]

theorem walkList_append (f : Visit) (l2 : List Node) :
    ∀ l1 : List Node, walkList f (l1 ++ l2) = seq2 (walkList f l1) (walkList f l2)
  | [] => by
    rw [List.nil_append, walkList]
    cases walkList f l2 <;> rfl
  | x :: rest => by
    rw [List.cons_append, walkList, walkList, walkList_append f l2 rest, seq2_assoc]

theorem walkOpt_toList (f : Visit) (o : Option Node) : walkList f o.toList = walkOpt f o := by
  cases o with
  | none => simp [walkList, walkOpt]
  | some n => simp [walkList, walkOpt, seq2_nil_right]

/-- `Walk` visits the node, then its children in order. -/
theorem Walk_children (f : Visit) (node : Node) :
    Walk f node = walkFrame f node (walkList f node.children) := by
  cases node <;> rw [Walk] <;>
    simp only [Node.children, walkList, walkList_append, walkOpt_toList, seq2_nil_right]

theorem Walk_visit (fc : floatcompare) (pass : Pass) (node : Node) :
    reported (Walk (fc.visit pass) node) =
      reported (fc.isCheckExpr (some node) pass) ++
        reported (walkList (fc.visit pass) node.children) := by
  rw [Walk_children, walkList_ok, walkFrame_ok]
  simp [reported, floatcompare.isCheckExpr]

theorem walkList_visit_cons (fc : floatcompare) (pass : Pass) (x : Node) (l : List Node) :
    reported (walkList (fc.visit pass) (x :: l)) =
      reported (Walk (fc.visit pass) x) ++ reported (walkList (fc.visit pass) l) := by
  rw [walkList, Walk_ok, walkList_ok, seq2_ok]
  simp [reported]

theorem walkList_visit_append (fc : floatcompare) (pass : Pass) (l1 l2 : List Node) :
    reported (walkList (fc.visit pass) (l1 ++ l2)) =
      reported (walkList (fc.visit pass) l1) ++ reported (walkList (fc.visit pass) l2) := by
  rw [walkList_append, walkList_ok, walkList_ok fc pass l2, seq2_ok]
  simp [reported]

theorem walkList_visit_mem (fc : floatcompare) (pass : Pass) (c : Node) (l : List Node)
    (h : c ∈ l) :
    ∃ pre post : List Diagnostic,
      reported (walkList (fc.visit pass) l) = pre ++ reported (Walk (fc.visit pass) c) ++ post := by
  obtain ⟨l1, l2, rfl⟩ := List.append_of_mem h
  exact ⟨_, _, by rw [walkList_visit_append, walkList_visit_cons, List.append_assoc]⟩

/-- The diagnostics of a node that appears in a tree are a segment of the
diagnostics of the tree. -/
theorem Walk_within (fc : floatcompare) (pass : Pass) (root n : Node) (h : Within root n) :
    ∃ pre post : List Diagnostic,
      reported (Walk (fc.visit pass) root) = pre ++ reported (Walk (fc.visit pass) n) ++ post := by
  induction h with
  | self n => exact ⟨[], [], by simp⟩
  | child root c n hc _ ih =>
    obtain ⟨pre, post, hn⟩ := ih
    obtain ⟨pre2, post2, hl⟩ := walkList_visit_mem fc pass c root.children hc
    refine ⟨reported (fc.isCheckExpr (some root) pass) ++ pre2 ++ pre, post ++ post2, ?_⟩
    rw [Walk_visit, hl, hn]
    simp [List.append_assoc]

/-- The diagnostics of a file that is not skipped are a segment of the
diagnostics of `run`. -/
theorem run_file (fc : floatcompare) (pass : Pass) (f : Node) (hf : f ∈ pass.Files)
    (hskip : (fc.skipTests && HasSuffix (pass.Fset.Filename f.Pos) "_test.go") = false) :
    ∃ pre post : List Diagnostic,
      fc.run pass =
        .ok { diagnostics := pre ++ reported (Walk (fc.visit pass) f) ++ post,
              result := none, err := none } := by
  obtain ⟨l1, l2, hl⟩ := List.append_of_mem hf
  refine ⟨reported (fc.rangeFiles pass l1), reported (fc.rangeFiles pass l2), ?_⟩
  rw [run_eq, hl, rangeFiles_append]
  have h2 : fc.rangeFiles pass (f :: l2) =
      .ok (reported (Walk (fc.visit pass) f) ++ reported (fc.rangeFiles pass l2)) := by
    rw [floatcompare.rangeFiles, hskip, Inspect, Walk_ok, rangeFiles_ok fc pass l2, seq2_ok]
    simp [reported]
  rw [h2]
  simp [reported, List.append_assoc]

/-! ## The comparison matcher -/

/-- C1: with `equalOnly` unset, `checkBinExpr` on a binary expression whose
operator is one of `==`, `!=`, `<`, `<=`, `>`, `>=` and whose two operands
both classify as floating-point (whatever the operands are: variables of a
named float type, function calls, literals) reports exactly one diagnostic,
and its position is the position of the binary expression. -/
theorem checkBinExpr_reports_float_comparison (fc : floatcompare) (pass : Pass)
    (b : BinaryExpr) (hfc : fc.equalOnly = false) (hop : b.Op.isComparison)
    (hX : fc.isFloat (some b.X) pass = true) (hY : fc.isFloat (some b.Y) pass = true) :
    fc.checkBinExpr b pass =
      [{ Pos := b.toNode.Pos,
         Message := "float comparison found " ++
           Quote pass.IsPrintWide (render pass.Fset b.toNode) }] :=
  checkBinExpr_float fc pass b (Or.inl ⟨hfc, hop⟩) hX hY

/-- Witness of C1 on `dummy() == dummy()` of `demo.go`, whose operands are
function calls of result type `float64`. -/
theorem checkBinExpr_reports_float_comparison_witness :
    demoCmpCalls.Op.isComparison ∧
    floatcompare.isFloat ⟨false, false⟩ (some demoCmpCalls.X) (demoPass "demo.go") = true ∧
    floatcompare.isFloat ⟨false, false⟩ (some demoCmpCalls.Y) (demoPass "demo.go") = true ∧
    floatcompare.checkBinExpr ⟨false, false⟩ demoCmpCalls (demoPass "demo.go") =
      [{ Pos := 458, Message := "float comparison found \"dummy() == dummy()\"" }] :=
  ⟨Or.inl rfl, rfl, rfl,
    checkBinExpr_reports_float_comparison ⟨false, false⟩ (demoPass "demo.go") demoCmpCalls
      rfl (Or.inl rfl) rfl rfl⟩

/-- C2: `checkBinExpr` reports nothing for a binary expression one of whose
operands does not classify as floating-point, whatever the operator and
whatever `equalOnly` is. -/
theorem checkBinExpr_silent_on_non_float (fc : floatcompare) (pass : Pass) (b : BinaryExpr)
    (h : fc.isFloat (some b.X) pass = false ∨ fc.isFloat (some b.Y) pass = false) :
    fc.checkBinExpr b pass = [] :=
  checkBinExpr_not_float fc pass b h

/-- Witness of C2 on `300 == 200` of `demo.go`, two untyped integer
constants. -/
theorem checkBinExpr_silent_on_non_float_witness :
    floatcompare.isFloat ⟨false, false⟩ (some demoCmpInts.X) (demoPass "demo.go") = false ∧
    floatcompare.checkBinExpr ⟨false, false⟩ demoCmpInts (demoPass "demo.go") = [] :=
  ⟨rfl, checkBinExpr_silent_on_non_float ⟨false, false⟩ (demoPass "demo.go") demoCmpInts
    (Or.inl rfl)⟩

/-- C3: with `equalOnly` set, `checkBinExpr` on a binary expression whose two
operands classify as floating-point reports nothing when the operator is
`<`, `<=`, `>` or `>=`, and exactly one diagnostic when it is `==` or `!=`. -/
theorem checkBinExpr_equalOnly (fc : floatcompare) (pass : Pass) (b : BinaryExpr)
    (hfc : fc.equalOnly = true)
    (hX : fc.isFloat (some b.X) pass = true) (hY : fc.isFloat (some b.Y) pass = true) :
    (b.Op.isOrdering → fc.checkBinExpr b pass = []) ∧
    ((b.Op = .EQL ∨ b.Op = .NEQ) →
      fc.checkBinExpr b pass =
        [{ Pos := b.toNode.Pos,
           Message := "float comparison found " ++
             Quote pass.IsPrintWide (render pass.Fset b.toNode) }]) := by
  constructor
  · intro h
    rcases h with h | h | h | h <;> simp [floatcompare.checkBinExpr, hfc, h]
  · intro h
    exact checkBinExpr_float fc pass b (Or.inr h) hX hY

/-- Witness of C3 on `300. >= 100.` and on `x == y` of `demo.go`. -/
theorem checkBinExpr_equalOnly_witness :
    floatcompare.isFloat ⟨true, false⟩ (some demoCmpGeq.X) (demoPass "demo.go") = true ∧
    floatcompare.isFloat ⟨true, false⟩ (some demoCmpGeq.Y) (demoPass "demo.go") = true ∧
    floatcompare.checkBinExpr ⟨true, false⟩ demoCmpGeq (demoPass "demo.go") = [] ∧
    floatcompare.checkBinExpr ⟨true, false⟩ demoCmpFloats (demoPass "demo.go") =
      [{ Pos := 101, Message := "float comparison found \"x == y\"" }] :=
  ⟨rfl, rfl,
    (checkBinExpr_equalOnly ⟨true, false⟩ (demoPass "demo.go") demoCmpGeq rfl rfl rfl).1
      (Or.inr (Or.inr (Or.inr rfl))),
    (checkBinExpr_equalOnly ⟨true, false⟩ (demoPass "demo.go") demoCmpFloats rfl rfl rfl).2
      (Or.inl rfl)⟩

/-- C4: `checkBinExpr` reports nothing for a binary expression whose operator
is not one of `==`, `!=`, `<`, `<=`, `>`, `>=`, whatever `equalOnly` is and
whatever the operands are. -/
theorem checkBinExpr_ignores_other_operators (fc : floatcompare) (pass : Pass)
    (b : BinaryExpr) (hop : ¬ b.Op.isComparison) :
    fc.checkBinExpr b pass = [] := by
  simp only [Token.isComparison, not_or] at hop
  obtain ⟨h1, h2, h3, h4, h5, h6⟩ := hop
  simp [floatcompare.checkBinExpr, h1, h2, h3, h4, h5, h6]

/-- Witness of C4 on `300.+200.` of `demo.go`, whose operands are both
floating-point. -/
theorem checkBinExpr_ignores_other_operators_witness :
    ¬ demoAdd.Op.isComparison ∧
    floatcompare.isFloat ⟨false, false⟩ (some demoAdd.X) (demoPass "demo.go") = true ∧
    floatcompare.isFloat ⟨false, false⟩ (some demoAdd.Y) (demoPass "demo.go") = true ∧
    floatcompare.checkBinExpr ⟨false, false⟩ demoAdd (demoPass "demo.go") = [] :=
  ⟨by simp [Token.isComparison, demoAdd], rfl, rfl,
    checkBinExpr_ignores_other_operators ⟨false, false⟩ (demoPass "demo.go") demoAdd
      (by simp [Token.isComparison, demoAdd])⟩

/-! ## The switch-tag matcher -/

/-- C5: `isCheckExpr` on a switch statement whose tag is present and
classifies as floating-point reports exactly one diagnostic, at the position
of the tag, whatever the body (the case clauses), the init statement and the
flags are; so inspecting the switch reports this one diagnostic for the
switch, followed by what its init statement, its tag and its body report for
themselves. -/
theorem isCheckExpr_reports_float_tag (fc : floatcompare) (pass : Pass)
    (Switch : Pos) (Init : Option Node) (tag Body : Node)
    (h : fc.isFloat (some tag) pass = true) :
    fc.isCheckExpr (some (.SwitchStmt Switch Init (some tag) Body)) pass =
      .ok [{ Pos := tag.Pos, Message := "float comparison with switch statement" }] ∧
    Inspect (.SwitchStmt Switch Init (some tag) Body) (fc.visit pass) =
      .ok ({ Pos := tag.Pos, Message := "float comparison with switch statement" } ::
        (reported (walkOpt (fc.visit pass) Init) ++ reported (Walk (fc.visit pass) tag) ++
          reported (Walk (fc.visit pass) Body))) := by
  have hsw : fc.isCheckExpr (some (.SwitchStmt Switch Init (some tag) Body)) pass =
      .ok [{ Pos := tag.Pos, Message := "float comparison with switch statement" }] := by
    simp [floatcompare.isCheckExpr, h]
  refine ⟨hsw, ?_⟩
  rw [Inspect, Walk_ok, Walk_visit, hsw]
  simp only [Node.children, walkList_visit_append, walkList_visit_cons, walkOpt_toList]
  simp [reported, walkList, walkOpt]

/-- Witness of C5 on `switch 300. { case 100.: case 200: }` of `demo.go`: the
keyword is at 847, the tag and the diagnostic at 854. -/
theorem isCheckExpr_reports_float_tag_witness :
    floatcompare.isFloat ⟨true, false⟩ (some (.BasicLit 854 .FLOAT "300.")) (demoPass "demo.go")
      = true ∧
    floatcompare.isCheckExpr ⟨true, false⟩
      (some (.SwitchStmt 847 none (some (.BasicLit 854 .FLOAT "300."))
        (.BlockStmt 859 [.CaseClause 862 [.BasicLit 867 .FLOAT "100."] 871 [],
          .CaseClause 874 [.BasicLit 879 .INT "200"] 882 []] 885)))
      (demoPass "demo.go") =
      .ok [{ Pos := 854, Message := "float comparison with switch statement" }] ∧
    Inspect (.SwitchStmt 847 none (some (.BasicLit 854 .FLOAT "300."))
        (.BlockStmt 859 [.CaseClause 862 [.BasicLit 867 .FLOAT "100."] 871 [],
          .CaseClause 874 [.BasicLit 879 .INT "200"] 882 []] 885))
      (floatcompare.visit ⟨true, false⟩ (demoPass "demo.go")) =
      .ok [{ Pos := 854, Message := "float comparison with switch statement" }] :=
  ⟨rfl,
    (isCheckExpr_reports_float_tag ⟨true, false⟩ (demoPass "demo.go") 847 none
      (.BasicLit 854 .FLOAT "300.") _ rfl).1,
    (isCheckExpr_reports_float_tag ⟨true, false⟩ (demoPass "demo.go") 847 none
      (.BasicLit 854 .FLOAT "300.") _ rfl).2⟩

/-- C6: `isCheckExpr` on a switch statement without a tag completes and
reports nothing, whatever the rest of the statement is.  When a case clause
of such a switch lists a comparison `==` or `!=` of two floating-point
operands, `checkBinExpr` reports that comparison with exactly one diagnostic,
which carries the message of binary comparisons; inspecting the switch
reports this diagnostic once for the comparison, between the diagnostics of
the parts of the switch before and after it; and when the switch appears in
a file that `run` does not skip, the diagnostic is in the output of `run`. -/
theorem tagless_switch_case_comparison (fc : floatcompare) (pass : Pass)
    (Switch : Pos) (Init : Option Node) (Lbrace Rbrace : Pos) (cs1 cs2 : List Node)
    (Case Colon : Pos) (es1 es2 stmts : List Node) (b : BinaryExpr) (f : Node)
    (hop : b.Op = .EQL ∨ b.Op = .NEQ)
    (hX : fc.isFloat (some b.X) pass = true) (hY : fc.isFloat (some b.Y) pass = true)
    (hf : f ∈ pass.Files)
    (hskip : fc.skipTests = false ∨ HasSuffix (pass.Fset.Filename f.Pos) "_test.go" = false)
    (hin : Within f (.SwitchStmt Switch Init none (.BlockStmt Lbrace
      (cs1 ++ .CaseClause Case (es1 ++ b.toNode :: es2) Colon stmts :: cs2) Rbrace))) :
    (∀ Body : Node, fc.isCheckExpr (some (.SwitchStmt Switch Init none Body)) pass = .ok []) ∧
    fc.checkBinExpr b pass =
      [{ Pos := b.toNode.Pos,
         Message := "float comparison found " ++
           Quote pass.IsPrintWide (render pass.Fset b.toNode) }] ∧
    Inspect (.SwitchStmt Switch Init none (.BlockStmt Lbrace
        (cs1 ++ .CaseClause Case (es1 ++ b.toNode :: es2) Colon stmts :: cs2) Rbrace))
        (fc.visit pass) =
      .ok (reported (walkOpt (fc.visit pass) Init) ++
        reported (walkList (fc.visit pass) cs1) ++
        reported (walkList (fc.visit pass) es1) ++
        { Pos := b.toNode.Pos,
          Message := "float comparison found " ++
            Quote pass.IsPrintWide (render pass.Fset b.toNode) } ::
        (reported (Walk (fc.visit pass) b.X) ++
          reported (Walk (fc.visit pass) b.Y) ++
          reported (walkList (fc.visit pass) es2) ++
          reported (walkList (fc.visit pass) stmts) ++
          reported (walkList (fc.visit pass) cs2))) ∧
    (∃ pre post : List Diagnostic,
      fc.run pass =
        .ok { diagnostics := pre ++
                { Pos := b.toNode.Pos,
                  Message := "float comparison found " ++
                    Quote pass.IsPrintWide (render pass.Fset b.toNode) } :: post,
              result := none, err := none }) := by
  have hb : fc.checkBinExpr b pass = [foundDiagnostic pass b] :=
    checkBinExpr_float fc pass b (Or.inr hop) hX hY
  have hsw : ∀ Body : Node,
      fc.isCheckExpr (some (.SwitchStmt Switch Init none Body)) pass = .ok [] := by
    intro Body
    simp [floatcompare.isCheckExpr, isFloat_nil]
  have hwalk : reported (Walk (fc.visit pass) (.SwitchStmt Switch Init none (.BlockStmt Lbrace
        (cs1 ++ .CaseClause Case (es1 ++ b.toNode :: es2) Colon stmts :: cs2) Rbrace))) =
      reported (walkOpt (fc.visit pass) Init) ++
        reported (walkList (fc.visit pass) cs1) ++
        reported (walkList (fc.visit pass) es1) ++
        foundDiagnostic pass b ::
        (reported (Walk (fc.visit pass) b.X) ++
          reported (Walk (fc.visit pass) b.Y) ++
          reported (walkList (fc.visit pass) es2) ++
          reported (walkList (fc.visit pass) stmts) ++
          reported (walkList (fc.visit pass) cs2)) := by
    have hbn : reported (Walk (fc.visit pass) b.toNode) =
        foundDiagnostic pass b ::
          (reported (Walk (fc.visit pass) b.X) ++ reported (Walk (fc.visit pass) b.Y)) := by
      rw [Walk_visit]
      simp only [BinaryExpr.toNode, Node.children, walkList_visit_cons]
      simp [floatcompare.isCheckExpr, hb, reported, walkList]
    rw [Walk_visit, hsw]
    simp only [Node.children, walkList_visit_append, walkList_visit_cons, Walk_visit, hbn,
      walkOpt_toList]
    simp [floatcompare.isCheckExpr, reported, walkList, walkOpt]
  refine ⟨hsw, hb, ?_, ?_⟩
  · rw [Inspect, Walk_ok, hwalk]
    rfl
  · have hs : (fc.skipTests && HasSuffix (pass.Fset.Filename f.Pos) "_test.go") = false := by
      rcases hskip with h | h <;> simp [h]
    obtain ⟨pre, post, hrun⟩ := run_file fc pass f hf hs
    obtain ⟨pre2, post2, hseg⟩ := Walk_within fc pass f _ hin
    rw [hrun, hseg, hwalk]
    exact ⟨pre ++ (pre2 ++ (reported (walkOpt (fc.visit pass) Init) ++
        reported (walkList (fc.visit pass) cs1) ++
        reported (walkList (fc.visit pass) es1))), _, by
      simp only [List.append_assoc, List.cons_append]
      rfl⟩

/-- Witness of C6 on `switch { case 100. == 200.: }` of
`EqualCompareSwitchFloats` in `demo.go`: inspecting the switch reports the
one diagnostic of the comparison. -/
theorem tagless_switch_case_comparison_witness :
    Within demoFile (.SwitchStmt 925 none none (.BlockStmt 932
      ([] ++ .CaseClause 935 ([] ++ demoCmpCase.toNode :: []) 952 [] :: []) 955)) ∧
    Inspect (.SwitchStmt 925 none none (.BlockStmt 932
        ([] ++ .CaseClause 935 ([] ++ demoCmpCase.toNode :: []) 952 [] :: []) 955))
        (floatcompare.visit ⟨true, true⟩ (demoPass "demo.go")) =
      .ok [{ Pos := 940, Message := "float comparison found \"100. == 200.\"" }] :=
  have hin : Within demoFile (.SwitchStmt 925 none none (.BlockStmt 932
      ([] ++ .CaseClause 935 ([] ++ demoCmpCase.toNode :: []) 952 [] :: []) 955)) :=
    Within.child _ demoEqualCompareSwitchFloats _
      (by simp [demoFile, Node.children])
      (Within.child _ (.BlockStmt 922 [.SwitchStmt 925 none none (.BlockStmt 932
          [.CaseClause 935 [demoCmpCase.toNode] 952 []] 955)] 957) _
        (by simp [demoEqualCompareSwitchFloats, Node.children, demoCmpCase, BinaryExpr.toNode])
        (Within.child _ _ _ (by simp [Node.children]) (Within.self _)))
  ⟨hin,
    (tagless_switch_case_comparison ⟨true, true⟩ (demoPass "demo.go") 925 none 932 955 [] []
      935 952 [] [] [] demoCmpCase demoFile (Or.inl rfl) rfl rfl
      (List.Mem.head _) (Or.inr rfl) hin).2.2.1⟩

/-! ## The type classifier -/

/-- C7: when the type-info lookup resolves no type for an expression (also
for an absent expression, for which it never does), `isFloat` returns false;
so `checkBinExpr` reports nothing for a binary expression with such an
operand and `isCheckExpr` reports nothing for a switch statement with such a
tag; and `run` neither fails nor returns an error. -/
theorem unresolved_type_reports_nothing (fc : floatcompare) (pass : Pass)
    (expr : Option Node) (h : pass.TypesInfo.TypeOf expr = none) :
    fc.isFloat expr pass = false ∧
    (∀ b : BinaryExpr, expr = some b.X ∨ expr = some b.Y → fc.checkBinExpr b pass = []) ∧
    (∀ (Switch : Pos) (Init : Option Node) (Body : Node),
      fc.isCheckExpr (some (.SwitchStmt Switch Init expr Body)) pass = .ok []) ∧
    pass.TypesInfo.TypeOf none = none ∧
    (∃ ds : List Diagnostic,
      fc.run pass = .ok { diagnostics := ds, result := none, err := none }) := by
  have hf : fc.isFloat expr pass = false := isFloat_of_TypeOf_none fc pass expr h
  refine ⟨hf, ?_, ?_, rfl, ⟨_, run_eq fc pass⟩⟩
  · intro b hb
    apply checkBinExpr_not_float
    rcases hb with hb | hb
    · exact Or.inl (hb ▸ hf)
    · exact Or.inr (hb ▸ hf)
  · intro Switch Init Body
    simp [floatcompare.isCheckExpr, hf]

/-- Witness of C7 on the package name `main` of `demo.go`, an identifier with
no type, taken as the tag of a switch statement. -/
theorem unresolved_type_reports_nothing_witness :
    (demoPass "demo.go").TypesInfo.TypeOf (some (.Ident 9 "main")) = none ∧
    floatcompare.isFloat ⟨false, false⟩ (some (.Ident 9 "main")) (demoPass "demo.go") = false ∧
    floatcompare.isCheckExpr ⟨false, false⟩
      (some (.SwitchStmt 847 none (some (.Ident 9 "main")) (.BlockStmt 859 [] 885)))
      (demoPass "demo.go") = .ok [] :=
  ⟨rfl,
    (unresolved_type_reports_nothing ⟨false, false⟩ (demoPass "demo.go")
      (some (.Ident 9 "main")) rfl).1,
    (unresolved_type_reports_nothing ⟨false, false⟩ (demoPass "demo.go")
      (some (.Ident 9 "main")) rfl).2.2.1 847 none (.BlockStmt 859 [] 885)⟩

/-- C8: `isFloat` returns true for an expression whose type is declared,
through any chain of defined types and aliases, over `float32` or `float64`;
so an equality comparison of two operands of such a type is reported. -/
theorem isFloat_declared_float (fc : floatcompare) (pass : Pass) (expr : Option Node)
    (chain : List (Bool × String)) (kind : BasicKind)
    (hk : kind = .Float32 ∨ kind = .Float64)
    (h : pass.TypesInfo.TypeOf expr = some (declareChain chain (.Basic kind))) :
    fc.isFloat expr pass = true ∧
    (∀ b : BinaryExpr, expr = some b.X →
      pass.TypesInfo.TypeOf (some b.Y) = pass.TypesInfo.TypeOf (some b.X) →
      b.Op = .EQL ∨ b.Op = .NEQ →
      fc.checkBinExpr b pass =
        [{ Pos := b.toNode.Pos,
           Message := "float comparison found " ++
             Quote pass.IsPrintWide (render pass.Fset b.toNode) }]) := by
  have key : ∀ e : Option Node,
      pass.TypesInfo.TypeOf e = some (declareChain chain (.Basic kind)) →
      fc.isFloat e pass = true := by
    intro e he
    rcases hk with hk | hk <;> subst hk <;>
      simp [floatcompare.isFloat, he, Underlying_declareChain, GoType.Underlying,
        BasicKind.Info, IsFloat]
  refine ⟨key expr h, ?_⟩
  intro b hb hY hop
  subst hb
  exact checkBinExpr_float fc pass b (Or.inr hop) (key _ h) (key _ (hY.trans h))

/-- Witness of C8 on `x == y` of `EqualCompareIfCustomType` in `demo.go`,
where `x` and `y` have the type `number` declared as `type number float64`. -/
theorem isFloat_declared_float_witness :
    (demoPass "demo.go").TypesInfo.TypeOf (some demoCmpCustom.X) =
      some (declareChain [(false, "number")] (.Basic .Float64)) ∧
    floatcompare.isFloat ⟨false, false⟩ (some demoCmpCustom.X) (demoPass "demo.go") = true ∧
    floatcompare.checkBinExpr ⟨false, false⟩ demoCmpCustom (demoPass "demo.go") =
      [{ Pos := 396, Message := "float comparison found \"x == y\"" }] :=
  ⟨rfl,
    (isFloat_declared_float ⟨false, false⟩ (demoPass "demo.go") (some demoCmpCustom.X)
      [(false, "number")] .Float64 (Or.inr rfl) rfl).1,
    (isFloat_declared_float ⟨false, false⟩ (demoPass "demo.go") (some demoCmpCustom.X)
      [(false, "number")] .Float64 (Or.inr rfl) rfl).2 demoCmpCustom rfl rfl (Or.inl rfl)⟩

/-- C9: `isFloat` returns false for an expression whose type is a struct
type, or is declared over a struct type, whatever the fields of the struct
are, floating-point or not; so a comparison with such an operand is not
reported. -/
theorem isFloat_struct (fc : floatcompare) (pass : Pass) (expr : Option Node)
    (chain : List (Bool × String)) (fields : List (String × GoType))
    (h : pass.TypesInfo.TypeOf expr = some (declareChain chain (.Struct fields))) :
    fc.isFloat expr pass = false ∧
    (∀ b : BinaryExpr, expr = some b.X ∨ expr = some b.Y → fc.checkBinExpr b pass = []) := by
  have hf : fc.isFloat expr pass = false := by
    simp [floatcompare.isFloat, h, Underlying_declareChain, GoType.Underlying]
  refine ⟨hf, ?_⟩
  intro b hb
  apply checkBinExpr_not_float
  rcases hb with hb | hb
  · exact Or.inl (hb ▸ hf)
  · exact Or.inr (hb ▸ hf)

/-- Witness of C9 on `k == j` of `EqualCompareIfNotSimpleType` in `demo.go`,
where `k` and `j` have the type `demo`, a struct of two `float64` fields. -/
theorem isFloat_struct_witness :
    (demoPass "demo.go").TypesInfo.TypeOf (some demoCmpStruct.X) =
      some (declareChain [(false, "demo")]
        (.Struct [("x", .Basic .Float64), ("y", .Basic .Float64)])) ∧
    floatcompare.isFloat ⟨false, false⟩ (some demoCmpStruct.X) (demoPass "demo.go") = false ∧
    floatcompare.checkBinExpr ⟨false, false⟩ demoCmpStruct (demoPass "demo.go") = [] :=
  ⟨rfl,
    (isFloat_struct ⟨false, false⟩ (demoPass "demo.go") (some demoCmpStruct.X)
      [(false, "demo")] [("x", .Basic .Float64), ("y", .Basic .Float64)] rfl).1,
    (isFloat_struct ⟨false, false⟩ (demoPass "demo.go") (some demoCmpStruct.X)
      [(false, "demo")] [("x", .Basic .Float64), ("y", .Basic .Float64)] rfl).2
      demoCmpStruct (Or.inl rfl)⟩

/-! ## The walker and test files -/

/-- The visitor of `run` reads `equalOnly`, the type information and the
printer, and nothing else of the flags and of the pass. -/
theorem visit_congr (fc fc2 : floatcompare) (pass pass2 : Pass)
    (he : fc.equalOnly = fc2.equalOnly) (hT : pass.TypesInfo = pass2.TypesInfo)
    (hP : pass.Fset.Fprint = pass2.Fset.Fprint) (hW : pass.IsPrintWide = pass2.IsPrintWide) :
    fc.visit pass = fc2.visit pass2 := by
  obtain ⟨e1, s1⟩ := fc
  obtain ⟨e2, s2⟩ := fc2
  obtain ⟨⟨n1, p1⟩, f1, t1, w1⟩ := pass
  obtain ⟨⟨n2, p2⟩, f2, t2, w2⟩ := pass2
  simp only at he hT hP hW
  subst he hT hP hW
  rfl

theorem rangeFiles_congr (fc fc2 : floatcompare) (pass pass2 : Pass)
    (hv : fc.visit pass = fc2.visit pass2) :
    ∀ files : List Node,
      (∀ f ∈ files, (fc.skipTests && HasSuffix (pass.Fset.Filename f.Pos) "_test.go") =
        (fc2.skipTests && HasSuffix (pass2.Fset.Filename f.Pos) "_test.go")) →
      fc.rangeFiles pass files = fc2.rangeFiles pass2 files
  | [], _ => by rw [floatcompare.rangeFiles, floatcompare.rangeFiles]
  | f :: rest, h => by
    have ih := rangeFiles_congr fc fc2 pass pass2 hv rest
      (fun g hg => h g (List.mem_cons_of_mem _ hg))
    rw [floatcompare.rangeFiles, floatcompare.rangeFiles, h f (List.mem_cons_self _ _), hv, ih]

theorem rangeFiles_withFiles (fc : floatcompare) (pass : Pass) (fs files : List Node) :
    fc.rangeFiles (pass.withFiles fs) files = fc.rangeFiles pass files :=
  rangeFiles_congr fc fc (pass.withFiles fs) pass (visit_congr _ _ _ _ rfl rfl rfl rfl) files
    (fun _ _ => rfl)

theorem diagnostics_withFiles (fc : floatcompare) (pass : Pass) (fs : List Node) :
    fc.diagnostics (pass.withFiles fs) = reported (fc.rangeFiles pass fs) := by
  rw [floatcompare.diagnostics, run_eq, rangeFiles_withFiles]
  rfl

theorem run_withFiles (fc : floatcompare) (pass : Pass) (fs : List Node) :
    fc.run (pass.withFiles fs) =
      .ok { diagnostics := reported (fc.rangeFiles pass fs), result := none, err := none } := by
  rw [run_eq, rangeFiles_withFiles]
  rfl

/-- C10: for a file whose name ends in `_test.go`: with `skipTests` set, the
output of `run` is what it is without the file, whatever the file contains;
with `skipTests` unset, the file contributes to the output of `run` the
diagnostics of the file analysed alone, and these are the diagnostics that
`run` reports, with `skipTests` set or unset, for the same file under a name
that does not end in `_test.go`. -/
theorem skipTests_test_file (fc : floatcompare) (pass : Pass) (f : Node)
    (before after : List Node) (stem : String)
    (hname : pass.Fset.Filename f.Pos = stem ++ "_test.go") :
    (fc.skipTests = true →
      fc.run (pass.withFiles (before ++ f :: after)) =
        fc.run (pass.withFiles (before ++ after))) ∧
    (fc.skipTests = false →
      fc.run (pass.withFiles (before ++ f :: after)) =
        .ok { diagnostics :=
                fc.diagnostics (pass.withFiles before) ++ fc.diagnostics (pass.withFiles [f]) ++
                  fc.diagnostics (pass.withFiles after),
              result := none, err := none } ∧
      ∀ (name : Pos → String) (skip : Bool), HasSuffix (name f.Pos) "_test.go" = false →
        floatcompare.run { equalOnly := fc.equalOnly, skipTests := skip }
            ((pass.withFiles [f]).rename name) =
          fc.run (pass.withFiles [f])) := by
  have hsuf : HasSuffix (pass.Fset.Filename f.Pos) "_test.go" = true := by
    rw [hname]
    exact HasSuffix_append stem "_test.go"
  constructor
  · intro hs
    have hskip : fc.rangeFiles pass (f :: after) = fc.rangeFiles pass after := by
      rw [floatcompare.rangeFiles, hs, hsuf]
      rfl
    rw [run_withFiles, run_withFiles, rangeFiles_append, rangeFiles_append, hskip]
  · intro hs
    constructor
    · rw [run_withFiles, diagnostics_withFiles, diagnostics_withFiles, diagnostics_withFiles,
        rangeFiles_append, List.append_assoc]
      have h2 := rangeFiles_append fc pass after [f]
      rw [List.singleton_append] at h2
      rw [h2]
      rfl
    · intro name skip hn
      have hv : floatcompare.visit { equalOnly := fc.equalOnly, skipTests := skip }
          ((pass.withFiles [f]).rename name) = fc.visit (pass.withFiles [f]) :=
        visit_congr _ _ _ _ rfl rfl rfl rfl
      have hr := rangeFiles_congr { equalOnly := fc.equalOnly, skipTests := skip } fc
        ((pass.withFiles [f]).rename name) (pass.withFiles [f]) hv [f] (by
          intro g hg
          rw [List.mem_singleton] at hg
          subst hg
          have : ((pass.withFiles [g]).rename name).Fset.Filename g.Pos = name g.Pos := rfl
          rw [this, hn, hs]
          simp)
      have hl : ((pass.withFiles [f]).rename name).Files = [f] := rfl
      have hl2 : (pass.withFiles [f]).Files = [f] := rfl
      rw [floatcompare.run, floatcompare.run, hl, hl2, hr]

/-- Witness of C10 on `demo.go` under the name `demo_test.go`: with
`skipTests` set `run` reports nothing; with `skipTests` unset it reports what
it reports for the file under the name `demo.go`. -/
theorem skipTests_test_file_witness :
    (demoPass "demo_test.go").Fset.Filename demoFile.Pos = "demo" ++ "_test.go" ∧
    floatcompare.run ⟨false, true⟩ (demoPass "demo_test.go") =
      .ok { diagnostics := [], result := none, err := none } ∧
    floatcompare.run ⟨false, true⟩ (demoPass "demo.go") =
      floatcompare.run ⟨false, false⟩ (demoPass "demo_test.go") :=
  ⟨rfl,
    ((skipTests_test_file ⟨false, true⟩ (demoPass "demo_test.go") demoFile [] [] "demo" rfl).1
      rfl).trans rfl,
    ((skipTests_test_file ⟨false, false⟩ (demoPass "demo_test.go") demoFile [] [] "demo" rfl).2
      rfl).2 (fun p => if 1 ≤ p ∧ p ≤ 1203 then "demo.go" else "") true rfl⟩

/-! ## The walker visits every node once, in pre-order -/

theorem walkFrame_visitAll (g : Node → List Diagnostic) (node : Node) (ks : List Diagnostic) :
    walkFrame (visitAll g) node (.ok ks) = .ok (g node ++ ks) := by
  simp [walkFrame, visitAll]

mutual
theorem Walk_visitAll (g : Node → List Diagnostic) :
    ∀ node : Node, Walk (visitAll g) node = .ok ((preorder node).flatMap g)
  | .Ident _ _ => by rw [Walk, walkFrame_visitAll]; simp [preorder]
  | .BasicLit _ _ _ => by rw [Walk, walkFrame_visitAll]; simp [preorder]
  | .ParenExpr _ X _ => by
    rw [Walk, Walk_visitAll g X, walkFrame_visitAll]; simp [preorder]
  | .SelectorExpr X Sel => by
    rw [Walk, Walk_visitAll g X, Walk_visitAll g Sel, seq2_ok, walkFrame_visitAll]
    simp [preorder]
  | .CallExpr Fun _ Args _ => by
    rw [Walk, Walk_visitAll g Fun, walkList_visitAll g Args, seq2_ok, walkFrame_visitAll]
    simp [preorder]
  | .UnaryExpr _ _ X => by
    rw [Walk, Walk_visitAll g X, walkFrame_visitAll]; simp [preorder]
  | .BinaryExpr X _ _ Y => by
    rw [Walk, Walk_visitAll g X, Walk_visitAll g Y, seq2_ok, walkFrame_visitAll]
    simp [preorder]
  | .ExprStmt X => by
    rw [Walk, Walk_visitAll g X, walkFrame_visitAll]; simp [preorder]
  | .BlockStmt _ Stmts _ => by
    rw [Walk, walkList_visitAll g Stmts, walkFrame_visitAll]; simp [preorder]
  | .IfStmt _ Init Cond Body Else => by
    rw [Walk, walkOpt_visitAll g Init, Walk_visitAll g Cond, Walk_visitAll g Body,
      walkOpt_visitAll g Else, seq2_ok, seq2_ok, seq2_ok, walkFrame_visitAll]
    simp [preorder]
  | .CaseClause _ Exprs _ Body => by
    rw [Walk, walkList_visitAll g Exprs, walkList_visitAll g Body, seq2_ok,
      walkFrame_visitAll]
    simp [preorder]
  | .SwitchStmt _ Init Tag Body => by
    rw [Walk, walkOpt_visitAll g Init, walkOpt_visitAll g Tag, Walk_visitAll g Body,
      seq2_ok, seq2_ok, walkFrame_visitAll]
    simp [preorder]
  | .File _ Name Decls => by
    rw [Walk, Walk_visitAll g Name, walkList_visitAll g Decls, seq2_ok, walkFrame_visitAll]
    simp [preorder]
  | .Other _ children => by
    rw [Walk, walkList_visitAll g children, walkFrame_visitAll]; simp [preorder]
theorem walkList_visitAll (g : Node → List Diagnostic) :
    ∀ list : List Node, walkList (visitAll g) list = .ok ((preorderList list).flatMap g)
  | [] => by rw [walkList]; simp [preorderList]
  | x :: rest => by
    rw [walkList, Walk_visitAll g x, walkList_visitAll g rest, seq2_ok]
    simp [preorderList]
theorem walkOpt_visitAll (g : Node → List Diagnostic) :
    ∀ node : Option Node, walkOpt (visitAll g) node = .ok ((preorderOpt node).flatMap g)
  | none => by rw [walkOpt]; simp [preorderOpt]
  | some n => by
    rw [walkOpt, Walk_visitAll g n]; simp [preorderOpt]
end

theorem isCheckExpr_nodeDiagnostics (fc : floatcompare) (pass : Pass) (n : Node) :
    reported (fc.isCheckExpr (some n) pass) = nodeDiagnostics fc pass n := by
  cases n with
  | BinaryExpr X OpPos Op Y =>
    simp only [floatcompare.isCheckExpr, reported, floatcompare.checkBinExpr, nodeDiagnostics,
      Pass.ReportfFound, BinaryExpr.toNode, BinaryExpr.Pos, Node.Pos]
    cases hX : fc.isFloat (some X) pass <;> cases hY : fc.isFloat (some Y) pass <;>
      cases he : fc.equalOnly <;>
      by_cases h1 : Op = .EQL <;> by_cases h2 : Op = .NEQ <;> by_cases h3 : Op = .LSS <;>
      by_cases h4 : Op = .LEQ <;> by_cases h5 : Op = .GTR <;> by_cases h6 : Op = .GEQ <;>
      simp_all
  | SwitchStmt Switch Init Tag Body =>
    cases Tag with
    | none => simp [floatcompare.isCheckExpr, isFloat_nil, reported, nodeDiagnostics]
    | some tag =>
      cases h : fc.isFloat (some tag) pass <;>
        simp [floatcompare.isCheckExpr, reported, nodeDiagnostics, h]
  | _ => rfl

theorem visit_eq_visitAll (fc : floatcompare) (pass : Pass) :
    fc.visit pass = visitAll (nodeDiagnostics fc pass) := by
  funext node
  rw [visit_ok]
  cases node with
  | none => rfl
  | some n => rw [isCheckExpr_nodeDiagnostics]; rfl

theorem Walk_preorder (fc : floatcompare) (pass : Pass) (node : Node) :
    Walk (fc.visit pass) node = .ok ((preorder node).flatMap (nodeDiagnostics fc pass)) := by
  rw [visit_eq_visitAll, Walk_visitAll]

theorem rangeFiles_preorder (fc : floatcompare) (pass : Pass) :
    ∀ files : List Node,
      fc.rangeFiles pass files =
        .ok ((files.filter (fun f => !(fc.skipTests && isTestFile pass f))).flatMap
          (fun f => (preorder f).flatMap (nodeDiagnostics fc pass)))
  | [] => by rw [floatcompare.rangeFiles]; rfl
  | f :: rest => by
    rw [floatcompare.rangeFiles, rangeFiles_preorder fc pass rest, Inspect, Walk_preorder]
    cases h : (fc.skipTests && HasSuffix (pass.Fset.Filename f.Pos) "_test.go") <;>
      simp [List.filter, isTestFile, h, seq2_ok]

theorem preorderList_mem (c : Node) (l : List Node) (h : c ∈ l) (n : Node)
    (hn : n ∈ preorder c) : n ∈ preorderList l := by
  induction l with
  | nil => cases h
  | cons x rest ih =>
    rw [preorderList, List.mem_append]
    rcases List.mem_cons.mp h with rfl | h
    · exact Or.inl hn
    · exact Or.inr (ih h)

theorem preorderList_append (l1 l2 : List Node) :
    preorderList (l1 ++ l2) = preorderList l1 ++ preorderList l2 := by
  induction l1 with
  | nil => simp [preorderList]
  | cons x rest ih => simp [preorderList, ih]

theorem preorderOpt_toList (o : Option Node) : preorderList o.toList = preorderOpt o := by
  cases o <;> simp [preorderList, preorderOpt]

theorem preorder_children (node : Node) :
    preorder node = node :: preorderList node.children := by
  cases node <;> rw [preorder] <;>
    simp [Node.children, preorderList, preorderList_append, preorderOpt_toList]

theorem preorder_within (root n : Node) (h : Within root n) : n ∈ preorder root := by
  induction h with
  | self n => rw [preorder_children]; exact List.mem_cons_self _ _
  | child root c n hc _ ih =>
    rw [preorder_children]
    exact List.mem_cons_of_mem _ (preorderList_mem c _ hc n ih)

theorem flatMap_flatMap (l : List Node) (e : Node → List Diagnostic) :
    l.flatMap (fun f => (preorder f).flatMap e) = (l.flatMap preorder).flatMap e := by
  induction l with
  | nil => rfl
  | cons x rest ih => simp [List.flatMap_cons, ih]

theorem run_analysed (fc : floatcompare) (pass : Pass) :
    fc.run pass =
      .ok { diagnostics :=
              (analysed fc pass).flatMap
                (fun f => (preorder f).flatMap (nodeDiagnostics fc pass)),
            result := none, err := none } := by
  rw [floatcompare.run, rangeFiles_preorder]
  rfl

/-- C12: inspecting a tree calls the function once on every node of the
tree, in pre-order, whatever the function reports on a node; so inspecting
with the visitor of `run` reports the diagnostics of the nodes of the tree in
pre-order, where a matching binary expression has one diagnostic, a switch
statement with a floating-point tag has one, and any other node has none; the
output of `run` is this sequence for each file that is not skipped, file
after file; and the diagnostics of every node that appears in such a file
are in the output, also when the node is inside another node that has a
diagnostic. -/
theorem run_preorder (fc : floatcompare) (pass : Pass) :
    (∀ (g : Node → List Diagnostic) (root : Node),
      Inspect root (visitAll g) = .ok ((preorder root).flatMap g)) ∧
    (∀ root : Node,
      Inspect root (fc.visit pass) = .ok ((preorder root).flatMap (nodeDiagnostics fc pass))) ∧
    fc.run pass =
      .ok { diagnostics :=
              (analysed fc pass).flatMap
                (fun f => (preorder f).flatMap (nodeDiagnostics fc pass)),
            result := none, err := none } ∧
    (∀ (f n : Node) (d : Diagnostic), f ∈ analysed fc pass → Within f n →
      d ∈ nodeDiagnostics fc pass n → d ∈ fc.diagnostics pass) := by
  refine ⟨fun g root => Walk_visitAll g root, fun root => Walk_preorder fc pass root,
    run_analysed fc pass, ?_⟩
  intro f n d hf hn hd
  rw [floatcompare.diagnostics, run_analysed]
  simp only [List.mem_flatMap]
  exact ⟨f, hf, n, preorder_within f n hn, hd⟩

/-- Witness of C12 on `nested.go`: the comparison `x == y` inside the body of
the switch on `300.` is reported after the diagnostic of the switch. -/
theorem run_preorder_witness :
    nestedFile ∈ analysed ⟨false, false⟩ nestedPass ∧
    Within nestedFile nestedCmp ∧
    ({ Pos := 83, Message := "float comparison found \"x == y\"" } : Diagnostic) ∈
      floatcompare.diagnostics ⟨false, false⟩ nestedPass ∧
    floatcompare.run ⟨false, false⟩ nestedPass =
      .ok { diagnostics :=
              [{ Pos := 59, Message := "float comparison with switch statement" },
               { Pos := 83, Message := "float comparison found \"x == y\"" }],
            result := none, err := none } :=
  have hin : Within nestedFile nestedCmp :=
    Within.child _ (.Other 15 [.Ident 20 "nested", .Other 15 [.Other 26 []],
        .BlockStmt 29 [.Other 32 [.Ident 32 "x", .Ident 35 "y", .BasicLit 40 .FLOAT "400.",
          .BasicLit 46 .FLOAT "500."], nestedSwitch] 99]) _
      (by simp [nestedFile, Node.children])
      (Within.child _ (.BlockStmt 29 [.Other 32 [.Ident 32 "x", .Ident 35 "y",
          .BasicLit 40 .FLOAT "400.", .BasicLit 46 .FLOAT "500."], nestedSwitch] 99) _
        (by simp [Node.children])
        (Within.child _ nestedSwitch _ (by simp [Node.children])
          (Within.child _ (.BlockStmt 64 [.CaseClause 67 [.BasicLit 72 .FLOAT "100."] 76
              [.IfStmt 80 none nestedCmp (.BlockStmt 90 [] 94) none]] 97) _
            (by simp [nestedSwitch, Node.children])
            (Within.child _ (.CaseClause 67 [.BasicLit 72 .FLOAT "100."] 76
                [.IfStmt 80 none nestedCmp (.BlockStmt 90 [] 94) none]) _
              (by simp [Node.children])
              (Within.child _ (.IfStmt 80 none nestedCmp (.BlockStmt 90 [] 94) none) _
                (by simp [Node.children])
                (Within.child _ nestedCmp _ (by simp [Node.children])
                  (Within.self _)))))))
  ⟨List.Mem.head _, hin,
    (run_preorder ⟨false, false⟩ nestedPass).2.2.2 nestedFile nestedCmp
      { Pos := 83, Message := "float comparison found \"x == y\"" }
      (List.Mem.head _) hin (List.Mem.head _),
    (run_preorder ⟨false, false⟩ nestedPass).2.2.1⟩

/-! ## Narrowing with `equalOnly` -/

theorem nodeDiagnostics_equalOnly (pass : Pass) (skip : Bool) (n : Node) :
    nodeDiagnostics ⟨true, skip⟩ pass n =
      if n.isOrderingExpr = true then [] else nodeDiagnostics ⟨false, skip⟩ pass n := by
  cases n with
  | BinaryExpr X OpPos Op Y =>
    have hX : floatcompare.isFloat ⟨true, skip⟩ (some X) pass =
        floatcompare.isFloat ⟨false, skip⟩ (some X) pass := rfl
    have hY : floatcompare.isFloat ⟨true, skip⟩ (some Y) pass =
        floatcompare.isFloat ⟨false, skip⟩ (some Y) pass := rfl
    simp only [nodeDiagnostics, Node.isOrderingExpr, hX, hY]
    by_cases h3 : Op = .LSS <;> by_cases h4 : Op = .LEQ <;> by_cases h5 : Op = .GTR <;>
      by_cases h6 : Op = .GEQ <;> simp_all
  | SwitchStmt Switch Init Tag Body => cases Tag <;> rfl
  | _ => rfl

theorem flatMap_unless (p : Node → Bool) (e : Node → List Diagnostic) (l : List Node) :
    l.flatMap (fun n => if p n = true then [] else e n) =
      (l.filter (fun n => !p n)).flatMap e := by
  induction l with
  | nil => rfl
  | cons x rest ih =>
    cases h : p x <;> simp [List.flatMap_cons, List.filter, h, ih]

theorem sublist_flatMap_filter (p : Node → Bool) (e : Node → List Diagnostic) (l : List Node) :
    List.Sublist ((l.filter p).flatMap e) (l.flatMap e) := by
  induction l with
  | nil => exact List.Sublist.refl _
  | cons x rest ih =>
    cases h : p x
    · simp only [List.filter, h, List.flatMap_cons]
      exact List.Sublist.trans ih (List.sublist_append_right _ _)
    · simp only [List.filter, h, List.flatMap_cons]
      exact List.Sublist.append (List.Sublist.refl _) ih

theorem diagnostics_nodes (fc : floatcompare) (pass : Pass) :
    fc.diagnostics pass =
      ((analysed fc pass).flatMap preorder).flatMap (nodeDiagnostics fc pass) := by
  rw [floatcompare.diagnostics, run_analysed, flatMap_flatMap]

/-- C14: for every pass and every value of `skipTests`: the diagnostics of
`run` with `equalOnly` set are a sub-sequence of its diagnostics with
`equalOnly` unset; the latter are what `isCheckExpr` reports, with
`equalOnly` unset, on the nodes of the files that are not skipped, and the
former are what it reports, with `equalOnly` unset, on these nodes without
the binary expressions whose operator is `<`, `<=`, `>` or `>=`; and on a
switch statement `isCheckExpr` does the same with `equalOnly` set and unset. -/
theorem equalOnly_narrows (pass : Pass) (skip : Bool) :
    List.Sublist (floatcompare.diagnostics ⟨true, skip⟩ pass)
      (floatcompare.diagnostics ⟨false, skip⟩ pass) ∧
    floatcompare.diagnostics ⟨false, skip⟩ pass =
      ((analysed ⟨false, skip⟩ pass).flatMap preorder).flatMap
        (fun n => reported (floatcompare.isCheckExpr ⟨false, skip⟩ (some n) pass)) ∧
    floatcompare.diagnostics ⟨true, skip⟩ pass =
      (((analysed ⟨false, skip⟩ pass).flatMap preorder).filter
          (fun n => !n.isOrderingExpr)).flatMap
        (fun n => reported (floatcompare.isCheckExpr ⟨false, skip⟩ (some n) pass)) ∧
    (∀ (Switch : Pos) (Init Tag : Option Node) (Body : Node),
      floatcompare.isCheckExpr ⟨true, skip⟩ (some (.SwitchStmt Switch Init Tag Body)) pass =
        floatcompare.isCheckExpr ⟨false, skip⟩ (some (.SwitchStmt Switch Init Tag Body)) pass) := by
  have hemit : (fun n => reported (floatcompare.isCheckExpr ⟨false, skip⟩ (some n) pass)) =
      nodeDiagnostics ⟨false, skip⟩ pass := by
    funext n
    exact isCheckExpr_nodeDiagnostics _ pass n
  have hoff := diagnostics_nodes ⟨false, skip⟩ pass
  have hon : floatcompare.diagnostics ⟨true, skip⟩ pass =
      (((analysed ⟨false, skip⟩ pass).flatMap preorder).filter
          (fun n => !n.isOrderingExpr)).flatMap (nodeDiagnostics ⟨false, skip⟩ pass) := by
    have hfiles : analysed ⟨true, skip⟩ pass = analysed ⟨false, skip⟩ pass := rfl
    have hnd : nodeDiagnostics ⟨true, skip⟩ pass =
        fun n => if n.isOrderingExpr = true then [] else nodeDiagnostics ⟨false, skip⟩ pass n := by
      funext n
      exact nodeDiagnostics_equalOnly pass skip n
    rw [diagnostics_nodes, hfiles, hnd, flatMap_unless]
  refine ⟨?_, ?_, ?_, ?_⟩
  · rw [hon, hoff]
    exact sublist_flatMap_filter _ _ _
  · rw [hemit, hoff]
  · rw [hemit, hon]
  · intro Switch Init Tag Body
    rfl

/-- Witness of C14 on `demo.go`: with `equalOnly` set the eight diagnostics of
the comparisons `>=`, `<=`, `<`, `>` are missing, the other ten stay. -/
theorem equalOnly_narrows_witness :
    List.Sublist (floatcompare.diagnostics ⟨true, false⟩ (demoPass "demo.go"))
      (floatcompare.diagnostics ⟨false, false⟩ (demoPass "demo.go")) ∧
    (floatcompare.diagnostics ⟨true, false⟩ (demoPass "demo.go")).length = 10 ∧
    (floatcompare.diagnostics ⟨false, false⟩ (demoPass "demo.go")).length = 18 :=
  ⟨(equalOnly_narrows (demoPass "demo.go") false).1, rfl, rfl⟩

/-! ## The messages -/

theorem Quote_x_eq_y (wide : Char → Bool) : Quote wide "x == y" = "\"x == y\"" := by
  rfl

theorem escapedRune_plain (wide : Char → Bool) (c : Char)
    (h : 0x20 ≤ c.toNat ∧ c.toNat ≤ 0x7E ∧ c ≠ '"' ∧ c ≠ '\\') :
    escapedRune wide c = [c] := by
  obtain ⟨h1, h2, h3, h4⟩ := h
  have h5 : c.toNat ≤ 0xFF := by omega
  simp [escapedRune, IsPrint, h1, h2, h3, h4, h5]

theorem flatMap_escapedRune_plain (wide : Char → Bool) :
    ∀ l : List Char, (∀ c ∈ l, 0x20 ≤ c.toNat ∧ c.toNat ≤ 0x7E ∧ c ≠ '"' ∧ c ≠ '\\') →
      l.flatMap (escapedRune wide) = l
  | [], _ => rfl
  | c :: rest, h => by
    rw [List.flatMap_cons, escapedRune_plain wide c (h c (List.mem_cons_self _ _)),
      flatMap_escapedRune_plain wide rest (fun x hx => h x (List.mem_cons_of_mem _ hx))]
    rfl

/-- The quoted form of a text of printable ASCII characters other than the
double quote and the backslash is the text between double quotes. -/
theorem Quote_plain (wide : Char → Bool) (text : String)
    (h : ∀ c ∈ text.data, 0x20 ≤ c.toNat ∧ c.toNat ≤ 0x7E ∧ c ≠ '"' ∧ c ≠ '\\') :
    Quote wide text = "\"" ++ text ++ "\"" := by
  rw [Quote, flatMap_escapedRune_plain wide text.data h]
  apply String.ext
  simp [String.data_append]

/-- The quoted form of a text around one rune. -/
theorem Quote_around (wide : Char → Bool) (before after : String) (r : Char) :
    Quote wide (before ++ String.singleton r ++ after) =
      String.mk ('"' :: (before.data.flatMap (escapedRune wide) ++ (escapedRune wide r ++
        (after.data.flatMap (escapedRune wide) ++ ['"'])))) := by
  simp [Quote, String.data_append, List.flatMap_append, String.singleton]

theorem checkBinExpr_message (fc : floatcompare) (pass : Pass) (b : BinaryExpr)
    (d : Diagnostic) (hd : d ∈ fc.checkBinExpr b pass) :
    d.Message = "float comparison found " ++
      Quote pass.IsPrintWide (render pass.Fset b.toNode) := by
  unfold floatcompare.checkBinExpr at hd
  split_ifs at hd
  · cases hd
  · cases hd
  · cases hd
  · rw [List.mem_singleton] at hd
    rw [hd]
    rfl

theorem checkBinExpr_message_text (fc : floatcompare) (pass : Pass) (b : BinaryExpr)
    (d : Diagnostic) (hd : d ∈ fc.checkBinExpr b pass) (text : String)
    (ht : pass.Fset.Fprint b.toNode = .ok text) :
    d.Message = "float comparison found " ++ Quote pass.IsPrintWide text := by
  rw [checkBinExpr_message fc pass b d hd, render, ht]

/-- C11: every diagnostic that `checkBinExpr` reports has the message
`float comparison found ` followed by the quoted rendering of the binary
expression, which is the quoted text of the printer whenever the printer
writes one; every diagnostic that `isCheckExpr` reports for a switch
statement has the message `float comparison with switch statement`; and
inspecting `if x == y { }`, with `x` and `y` floating-point and printed as
`x == y`, reports the one diagnostic `float comparison found "x == y"`.
The quoting is that of the verb `%q`: a printed text of printable ASCII
characters without double quote and backslash stands unchanged between
double quotes; a double quote and a backslash of the printed text get a
backslash; a newline, a tab and the other control characters of a raw string
literal are written `\n`, `\t`, `\a`, `\b`, `\f`, `\v`, `\x01`, `\x7f`; the
printable `é` stands unchanged, the no-break space and the soft hyphen are
written `\u00a0` and `\u00ad`; and a rune above U+00FF stands unchanged when
the Unicode tables have it printable and is written `\u4e16`, `\U0001f600`
when they do not. -/
theorem diagnostic_messages (fc : floatcompare) (pass : Pass) :
    (∀ (b : BinaryExpr) (d : Diagnostic), d ∈ fc.checkBinExpr b pass →
      d.Message = "float comparison found " ++
          Quote pass.IsPrintWide (render pass.Fset b.toNode) ∧
        ∀ text : String, pass.Fset.Fprint b.toNode = .ok text →
          d.Message = "float comparison found " ++ Quote pass.IsPrintWide text) ∧
    (∀ (Switch : Pos) (Init Tag : Option Node) (Body : Node) (d : Diagnostic),
      d ∈ reported (fc.isCheckExpr (some (.SwitchStmt Switch Init Tag Body)) pass) →
        d.Message = "float comparison with switch statement") ∧
    (∀ (If px OpPos py Lbrace Rbrace : Pos),
      fc.isFloat (some (.Ident px "x")) pass = true →
      fc.isFloat (some (.Ident py "y")) pass = true →
      pass.Fset.Fprint (.BinaryExpr (.Ident px "x") OpPos .EQL (.Ident py "y")) = .ok "x == y" →
      Inspect (.IfStmt If none (.BinaryExpr (.Ident px "x") OpPos .EQL (.Ident py "y"))
          (.BlockStmt Lbrace [] Rbrace) none) (fc.visit pass) =
        .ok [{ Pos := px, Message := "float comparison found \"x == y\"" }]) ∧
    (∀ (b : BinaryExpr) (d : Diagnostic) (text : String), d ∈ fc.checkBinExpr b pass →
      pass.Fset.Fprint b.toNode = .ok text →
      (∀ c ∈ text.data, 0x20 ≤ c.toNat ∧ c.toNat ≤ 0x7E ∧ c ≠ '"' ∧ c ≠ '\\') →
      d.Message = "float comparison found \"" ++ text ++ "\"") ∧
    (∀ (b : BinaryExpr) (d : Diagnostic), d ∈ fc.checkBinExpr b pass →
      (pass.Fset.Fprint b.toNode = .ok "width(\"a\\n\") == x" →
        d.Message = "float comparison found \"width(\\\"a\\\\n\\\") == x\"") ∧
      (pass.Fset.Fprint b.toNode = .ok "width(\x60a\nb\tc\x60) == x" →
        d.Message = "float comparison found \"width(\x60a\\nb\\tc\x60) == x\"") ∧
      (pass.Fset.Fprint b.toNode = .ok "width(\x60\x07\x08\x0c\x0b\x01\x7f\x60) == x" →
        d.Message =
          "float comparison found \"width(\x60\\a\\b\\f\\v\\x01\\x7f\x60) == x\"") ∧
      (pass.Fset.Fprint b.toNode = .ok "width(\"\u00e9\u00a0\u00ad\") == x" →
        d.Message = "float comparison found \"width(\\\"\u00e9\\u00a0\\u00ad\\\") == x\"") ∧
      (pass.IsPrintWide (Char.ofNat 0x4E16) = true →
        pass.Fset.Fprint b.toNode =
          .ok ("width(\"" ++ String.singleton (Char.ofNat 0x4E16) ++ "\") == x") →
        d.Message = "float comparison found \"width(\\\"" ++
          String.singleton (Char.ofNat 0x4E16) ++ "\\\") == x\"") ∧
      (pass.IsPrintWide (Char.ofNat 0x4E16) = false →
        pass.Fset.Fprint b.toNode =
          .ok ("width(\"" ++ String.singleton (Char.ofNat 0x4E16) ++ "\") == x") →
        d.Message = "float comparison found \"width(\\\"\\u4e16\\\") == x\"") ∧
      (pass.IsPrintWide (Char.ofNat 0x1F600) = true →
        pass.Fset.Fprint b.toNode =
          .ok ("width(\"" ++ String.singleton (Char.ofNat 0x1F600) ++ "\") == x") →
        d.Message = "float comparison found \"width(\\\"" ++
          String.singleton (Char.ofNat 0x1F600) ++ "\\\") == x\"") ∧
      (pass.IsPrintWide (Char.ofNat 0x1F600) = false →
        pass.Fset.Fprint b.toNode =
          .ok ("width(\"" ++ String.singleton (Char.ofNat 0x1F600) ++ "\") == x") →
        d.Message = "float comparison found \"width(\\\"\\U0001f600\\\") == x\"")) := by
  refine ⟨?_, ?_, ?_, ?_, ?_⟩
  · intro b d hd
    exact ⟨checkBinExpr_message fc pass b d hd,
      fun text ht => checkBinExpr_message_text fc pass b d hd text ht⟩
  · intro Switch Init Tag Body d hd
    rw [isCheckExpr_nodeDiagnostics] at hd
    cases Tag with
    | none => simp [nodeDiagnostics] at hd
    | some tag =>
      simp only [nodeDiagnostics] at hd
      split_ifs at hd
      · rw [List.mem_singleton] at hd
        rw [hd]
      · cases hd
  · intro If px OpPos py Lbrace Rbrace hx hy hp
    rw [Inspect, Walk_preorder]
    simp [preorder, preorderOpt, preorderList, nodeDiagnostics, hx, hy, render, hp,
      Quote_x_eq_y, Node.Pos]
  · intro b d text hd ht hplain
    rw [checkBinExpr_message_text fc pass b d hd text ht, Quote_plain _ text hplain]
    apply String.ext
    simp [String.data_append]
  · intro b d hd
    refine ⟨?_, ?_, ?_, ?_, ?_, ?_, ?_, ?_⟩
    · intro ht
      rw [checkBinExpr_message_text fc pass b d hd _ ht]
      rfl
    · intro ht
      rw [checkBinExpr_message_text fc pass b d hd _ ht]
      rfl
    · intro ht
      rw [checkBinExpr_message_text fc pass b d hd _ ht]
      rfl
    · intro ht
      rw [checkBinExpr_message_text fc pass b d hd _ ht]
      rfl
    · intro hw ht
      have he : escapedRune pass.IsPrintWide (Char.ofNat 0x4E16) = [Char.ofNat 0x4E16] := by
        simp [escapedRune, IsPrint, hw]
      rw [checkBinExpr_message_text fc pass b d hd _ ht, Quote_around, he]
      rfl
    · intro hw ht
      have he : escapedRune pass.IsPrintWide (Char.ofNat 0x4E16) =
          ['\\', 'u', '4', 'e', '1', '6'] := by
        simp [escapedRune, IsPrint, hw]
        decide
      rw [checkBinExpr_message_text fc pass b d hd _ ht, Quote_around, he]
      rfl
    · intro hw ht
      have he : escapedRune pass.IsPrintWide (Char.ofNat 0x1F600) = [Char.ofNat 0x1F600] := by
        simp [escapedRune, IsPrint, hw]
      rw [checkBinExpr_message_text fc pass b d hd _ ht, Quote_around, he]
      rfl
    · intro hw ht
      have he : escapedRune pass.IsPrintWide (Char.ofNat 0x1F600) =
          ['\\', 'U', '0', '0', '0', '1', 'f', '6', '0', '0'] := by
        simp [escapedRune, IsPrint, hw]
        decide
      rw [checkBinExpr_message_text fc pass b d hd _ ht, Quote_around, he]
      rfl

/-- Witness of C11 on `x == y` of `EqualCompareIfFloats` in `demo.go`, where
`x` and `y` are `float64`: the message of `checkBinExpr`, and the diagnostics
of `if x == y { }`; and on `width("a\n") == x` of `quoted.go`, whose double
quotes and backslash are escaped in the message. -/
theorem diagnostic_messages_witness :
    floatcompare.checkBinExpr ⟨false, false⟩ demoCmpFloats (demoPass "demo.go") =
      [{ Pos := 101, Message := "float comparison found \"x == y\"" }] ∧
    ({ Pos := 101, Message := "float comparison found \"x == y\"" } : Diagnostic).Message =
      "float comparison found " ++ Quote (demoPass "demo.go").IsPrintWide "x == y" ∧
    Inspect (.IfStmt 98 none (.BinaryExpr (.Ident 101 "x") 103 .EQL (.Ident 106 "y"))
        (.BlockStmt 108 [] 110) none) (floatcompare.visit ⟨false, false⟩ (demoPass "demo.go")) =
      .ok [{ Pos := 101, Message := "float comparison found \"x == y\"" }] ∧
    quotedPass.Fset.Fprint quotedCmp.toNode = .ok "width(\"a\\n\") == x" ∧
    floatcompare.checkBinExpr ⟨false, false⟩ quotedCmp quotedPass =
      [{ Pos := 53, Message := "float comparison found \"width(\\\"a\\\\n\\\") == x\"" }] ∧
    ({ Pos := 53, Message := "float comparison found \"width(\\\"a\\\\n\\\") == x\"" } :
      Diagnostic).Message = "float comparison found \"width(\\\"a\\\\n\\\") == x\"" ∧
    floatcompare.run ⟨false, false⟩ quotedPass =
      .ok { diagnostics :=
              [{ Pos := 53,
                 Message := "float comparison found \"width(\\\"a\\\\n\\\") == x\"" }],
            result := none, err := none } :=
  ⟨rfl,
    ((diagnostic_messages ⟨false, false⟩ (demoPass "demo.go")).1 demoCmpFloats
      { Pos := 101, Message := "float comparison found \"x == y\"" }
      (List.Mem.head _)).2 "x == y" rfl,
    (diagnostic_messages ⟨false, false⟩ (demoPass "demo.go")).2.2.1 98 101 103 106 108 110
      rfl rfl rfl,
    rfl, rfl,
    ((diagnostic_messages ⟨false, false⟩ quotedPass).2.2.2.2 quotedCmp
      { Pos := 53, Message := "float comparison found \"width(\\\"a\\\\n\\\") == x\"" }
      (List.Mem.head _)).1 rfl,
    rfl⟩

/-! ## Files are independent -/

/-- C13: for all flags and all lists of files `fs1` and `fs2`, `run` on
`fs1 ++ fs2` reports the diagnostics of `run` on `fs1` followed by the
diagnostics of `run` on `fs2`, and returns `nil, nil`. -/
theorem run_append (fc : floatcompare) (pass : Pass) (fs1 fs2 : List Node) :
    fc.run (pass.withFiles (fs1 ++ fs2)) =
      .ok { diagnostics :=
              fc.diagnostics (pass.withFiles fs1) ++ fc.diagnostics (pass.withFiles fs2),
            result := none, err := none } ∧
    fc.diagnostics (pass.withFiles (fs1 ++ fs2)) =
      fc.diagnostics (pass.withFiles fs1) ++ fc.diagnostics (pass.withFiles fs2) := by
  have h : reported (fc.rangeFiles pass (fs1 ++ fs2)) =
      reported (fc.rangeFiles pass fs1) ++ reported (fc.rangeFiles pass fs2) := by
    rw [rangeFiles_append]
    rfl
  constructor
  · rw [run_withFiles, diagnostics_withFiles, diagnostics_withFiles, h]
  · rw [diagnostics_withFiles, diagnostics_withFiles, diagnostics_withFiles, h]

/-! ## The classifier, exactly -/

/-- C15: `isFloat` returns true exactly when a type is resolved for the
expression, the underlying type of that type is a basic type, and the flags
of the basic type include `IsFloat`, which is the case for `float32`,
`float64` and the untyped float and for no other basic type; so it returns
false for every other basic type and for an underlying type that is a
struct, a pointer, an interface, a slice, an array, a map or a function. -/
theorem isFloat_iff (fc : floatcompare) (pass : Pass) (expr : Option Node) :
    (fc.isFloat expr pass = true ↔
      ∃ (t : GoType) (kind : BasicKind), pass.TypesInfo.TypeOf expr = some t ∧
        t.Underlying = .Basic kind ∧ kind.Info &&& IsFloat ≠ 0) ∧
    (∀ kind : BasicKind, kind.Info &&& IsFloat ≠ 0 ↔
      kind = .Float32 ∨ kind = .Float64 ∨ kind = .UntypedFloat) ∧
    (∀ (t : GoType) (kind : BasicKind), pass.TypesInfo.TypeOf expr = some t →
      t.Underlying = .Basic kind →
      kind ≠ .Float32 → kind ≠ .Float64 → kind ≠ .UntypedFloat →
      fc.isFloat expr pass = false) ∧
    (∀ t : GoType, pass.TypesInfo.TypeOf expr = some t →
      ((∃ fields, t.Underlying = .Struct fields) ∨ (∃ base, t.Underlying = .Pointer base) ∨
        (∃ methods, t.Underlying = .Interface methods) ∨ (∃ elem, t.Underlying = .Slice elem) ∨
        (∃ len elem, t.Underlying = .Array len elem) ∨
        (∃ key elem, t.Underlying = .Map key elem) ∨
        (∃ params results, t.Underlying = .Signature params results)) →
      fc.isFloat expr pass = false) := by
  have hflag : ∀ kind : BasicKind, kind.Info &&& IsFloat ≠ 0 ↔
      kind = .Float32 ∨ kind = .Float64 ∨ kind = .UntypedFloat := by
    intro kind
    cases kind <;> decide
  refine ⟨?_, hflag, ?_, ?_⟩
  · constructor
    · intro h
      unfold floatcompare.isFloat at h
      split at h
      · cases h
      · rename_i t ht
        split at h
        · rename_i bt hbt
          refine ⟨t, bt, ht, hbt, ?_⟩
          intro h0
          simp [h0] at h
        · cases h
    · rintro ⟨t, kind, ht, hu, hk⟩
      simp [floatcompare.isFloat, ht, hu, hk]
  · intro t kind ht hu h1 h2 h3
    have hk : kind.Info &&& IsFloat = 0 := by
      by_contra hne
      rcases (hflag kind).mp hne with h | h | h
      · exact h1 h
      · exact h2 h
      · exact h3 h
    simp [floatcompare.isFloat, ht, hu, hk]
  · intro t ht hu
    rcases hu with ⟨_, hu⟩ | ⟨_, hu⟩ | ⟨_, hu⟩ | ⟨_, hu⟩ | ⟨_, _, hu⟩ | ⟨_, _, hu⟩ | ⟨_, _, hu⟩ <;>
      simp [floatcompare.isFloat, ht, hu]

/-- Witness of C15 on `demo.go`: `k` of `k == j` has a struct type and is not
floating-point, the literal `300` of `300 == 200` is an untyped integer and
is not floating-point, and `x` of `x == y` is a `float64`. -/
theorem isFloat_iff_witness :
    floatcompare.isFloat ⟨false, false⟩ (some demoCmpStruct.X) (demoPass "demo.go") = false ∧
    floatcompare.isFloat ⟨false, false⟩ (some demoCmpInts.X) (demoPass "demo.go") = false ∧
    floatcompare.isFloat ⟨false, false⟩ (some demoCmpFloats.X) (demoPass "demo.go") = true :=
  ⟨(isFloat_iff ⟨false, false⟩ (demoPass "demo.go") (some demoCmpStruct.X)).2.2.2
      demoStruct rfl (Or.inl ⟨_, rfl⟩),
    (isFloat_iff ⟨false, false⟩ (demoPass "demo.go") (some demoCmpInts.X)).2.2.1
      (.Basic .UntypedInt) .UntypedInt rfl rfl (by decide) (by decide) (by decide),
    (isFloat_iff ⟨false, false⟩ (demoPass "demo.go") (some demoCmpFloats.X)).1.mpr
      ⟨float64, .Float64, rfl, rfl, by decide⟩⟩

/-! ## The toggle `skipTests` -/

theorem filter_not_isTestFile (pass : Pass) (f : Node) :
    (!isTestFile pass f) = true ↔
      ¬ ∃ stem : String, pass.Fset.Filename f.Pos = stem ++ "_test.go" := by
  rw [← HasSuffix_iff]
  simp [isTestFile]

/-- C16: for every value of `equalOnly`: on a list of files none of whose
names ends in `_test.go`, `run` gives the same result with `skipTests` set
and unset; and on any list of files, `run` with `skipTests` set gives the
result of `run` with `skipTests` unset on the list without the test files,
which are the files whose names end in `_test.go`. -/
theorem skipTests_only_test_files (pass : Pass) (equalOnly : Bool) :
    ((∀ f ∈ pass.Files, ¬ ∃ stem : String, pass.Fset.Filename f.Pos = stem ++ "_test.go") →
      floatcompare.run ⟨equalOnly, true⟩ pass = floatcompare.run ⟨equalOnly, false⟩ pass) ∧
    floatcompare.run ⟨equalOnly, true⟩ pass =
      floatcompare.run ⟨equalOnly, false⟩
        (pass.withFiles (pass.Files.filter (fun f => !isTestFile pass f))) ∧
    (∀ f : Node, f ∈ pass.Files.filter (fun f => !isTestFile pass f) ↔
      f ∈ pass.Files ∧ ¬ ∃ stem : String, pass.Fset.Filename f.Pos = stem ++ "_test.go") := by
  have hv : floatcompare.visit ⟨equalOnly, true⟩ pass = floatcompare.visit ⟨equalOnly, false⟩ pass :=
    visit_congr _ _ _ _ rfl rfl rfl rfl
  have key : ∀ files : List Node,
      floatcompare.rangeFiles ⟨equalOnly, true⟩ pass files =
        floatcompare.rangeFiles ⟨equalOnly, false⟩ pass
          (files.filter (fun f => !isTestFile pass f)) := by
    intro files
    induction files with
    | nil => rfl
    | cons f rest ih =>
      rw [floatcompare.rangeFiles]
      cases h : HasSuffix (pass.Fset.Filename f.Pos) "_test.go"
      · have hf : List.filter (fun f => !isTestFile pass f) (f :: rest) =
            f :: List.filter (fun f => !isTestFile pass f) rest := by
          simp [List.filter, isTestFile, h]
        rw [hf, floatcompare.rangeFiles, ih, hv]
        rfl
      · have hf : List.filter (fun f => !isTestFile pass f) (f :: rest) =
            List.filter (fun f => !isTestFile pass f) rest := by
          simp [List.filter, isTestFile, h]
        rw [hf, ih]
        rfl
  have hsecond : floatcompare.run ⟨equalOnly, true⟩ pass =
      floatcompare.run ⟨equalOnly, false⟩
        (pass.withFiles (pass.Files.filter (fun f => !isTestFile pass f))) := by
    rw [run_withFiles, run_eq, key]
  refine ⟨?_, hsecond, ?_⟩
  · intro hall
    have hfilter : pass.Files.filter (fun f => !isTestFile pass f) = pass.Files := by
      rw [List.filter_eq_self]
      intro f hf
      exact (filter_not_isTestFile pass f).mpr (hall f hf)
    rw [hsecond, hfilter, run_withFiles, run_eq]
  · intro f
    rw [List.mem_filter, filter_not_isTestFile]

/-- Witness of C16 on `demo.go`, whose name does not end in `_test.go`. -/
theorem skipTests_only_test_files_witness :
    (∀ f ∈ (demoPass "demo.go").Files,
      ¬ ∃ stem : String, (demoPass "demo.go").Fset.Filename f.Pos = stem ++ "_test.go") ∧
    floatcompare.run ⟨true, true⟩ (demoPass "demo.go") =
      floatcompare.run ⟨true, false⟩ (demoPass "demo.go") :=
  have hall : ∀ f ∈ (demoPass "demo.go").Files,
      ¬ ∃ stem : String, (demoPass "demo.go").Fset.Filename f.Pos = stem ++ "_test.go" := by
    intro f hf
    have hf2 : f = demoFile := List.mem_singleton.mp hf
    subst hf2
    exact (filter_not_isTestFile (demoPass "demo.go") demoFile).mp rfl
  ⟨hall, (skipTests_only_test_files (demoPass "demo.go") true).1 hall⟩

end Floatcp
